import Mathlib

/-! gin-auth: the OAuth grant-request handlers.

A shallow embedding of `web/oauth.go` (the handlers `Authorize`, `Login`,
`Approve`, `Token` and the two `finish...Request` helpers) over an explicit
store value.  The handlers are translated from the Go source.  The `data`
package (records and persistence primitives) is not part of the sources at
hand; each of its operations is modelled from the specification and marked
as such.
-/

namespace GinAuth

/-! ## util -/

/-- The set of strings `util.StringSet`, kept as a duplicate-free list. -/
abbrev StringSet := List String

/-- Modelled from the spec: `util.NewStringSet`, the set of the given strings. -/
def NewStringSet (strs : List String) : StringSet := strs.dedup

/-- Modelled from the spec: `StringSet.Contains`. -/
def StringSet.Contains (a : StringSet) (x : String) : Bool := a.contains x

/-- Modelled from the spec: `StringSet.IsSuperset`, every element of `b` is in `a`. -/
def StringSet.IsSuperset (a b : StringSet) : Bool := b.all (fun x => a.contains x)

/-- Modelled from the spec: `StringSet.Strings`, the elements as a slice. -/
def StringSet.Strings (a : StringSet) : List String := a

/-- The Go library function `strings.Join`. -/
def stringsJoin (l : List String) (sep : String) : String := sep.intercalate l

/-- The nullable string `sql.NullString`. -/
structure NullString where
  Valid : Bool
  String : String
deriving DecidableEq, Repr

/-- The null value of `sql.NullString` (the Go zero value). -/
def NullString.null : NullString := ⟨false, ""⟩

/-! ## data: records -/

/-- Modelled from the spec: the record `data.Client` (spec section 3). -/
structure Client where
  UUID : String
  Name : String
  Secret : String
  RedirectURIs : StringSet
  ScopePermitted : StringSet
deriving DecidableEq, Repr

/-- Modelled from the spec: the record `data.Account`, as far as the Account Verifier
needs it; the stored password stands for what the verifier accepts. -/
structure Account where
  UUID : String
  Login : String
  Password : String
deriving DecidableEq, Repr

/-- Modelled from the spec: the record `data.GrantRequest` (spec section 3); the field
names used by `web/oauth.go` are kept. -/
structure GrantRequest where
  Token : String
  GrantType : String
  State : String
  Code : NullString
  ScopeRequested : StringSet
  ScopeApproved : StringSet
  RedirectURI : String
  ClientUUID : String
  AccountUUID : NullString
  CreatedAt : Nat
  Expires : Nat
deriving DecidableEq, Repr

/-- Modelled from the spec: the record `data.ClientApproval`. -/
structure ClientApproval where
  Scope : StringSet
  ClientUUID : String
  AccountUUID : String
deriving DecidableEq, Repr

/-- Modelled from the spec: the record `data.AccessToken`. -/
structure AccessToken where
  Token : String
  Scope : StringSet
  ClientUUID : String
  AccountUUID : String
  Expires : Nat
deriving DecidableEq, Repr

/-- Modelled from the spec: the record `data.RefreshToken`. -/
structure RefreshToken where
  Token : String
  Scope : StringSet
  ClientUUID : String
  AccountUUID : String
deriving DecidableEq, Repr

/-- The backing store: one table per record type, in insertion order. -/
structure Store where
  Clients : List Client
  Accounts : List Account
  GrantRequests : List GrantRequest
  ClientApprovals : List ClientApproval
  AccessTokens : List AccessToken
  RefreshTokens : List RefreshToken
deriving DecidableEq, Repr

/-- What a handler call receives from its surroundings: the clock, the configured
lifetimes and the Go library function `url.QueryEscape`. -/
structure Env where
  now : Nat
  GrantReqLifeTime : Nat
  TokenLifeTime : Nat
  QueryEscape : String → String

/-! ## data: persistence primitives -/

/-- Modelled from the spec: `data.GetClientByName`. -/
def GetClientByName (s : Store) (name : String) : Option Client :=
  s.Clients.find? (fun c => c.Name == name)

/-- Modelled from the spec: `data.GetAccountByLogin`. -/
def GetAccountByLogin (s : Store) (login : String) : Option Account :=
  s.Accounts.find? (fun a => a.Login == login)

/-- Modelled from the spec: `Account.VerifyPassword`, the Account Verifier. -/
def Account.VerifyPassword (a : Account) (password : String) : Bool :=
  a.Password == password

/-- Modelled from the spec: `data.GetGrantRequest`, lookup by the request token. -/
def GetGrantRequest (s : Store) (token : String) : Option GrantRequest :=
  s.GrantRequests.find? (fun r => r.Token == token)

/-- Modelled from the spec: `data.GetGrantRequestByCode`, lookup by the one-time code. -/
def GetGrantRequestByCode (s : Store) (code : String) : Option GrantRequest :=
  s.GrantRequests.find? (fun r => r.Code.Valid && r.Code.String == code)

/-- Modelled from the spec: the expiry sweep deletes a request when its expiry timestamp
has passed and it has not reached a terminal state; the only terminal state with a
persisted record is `code-issued`. -/
def GrantRequest.stale (env : Env) (r : GrantRequest) : Bool :=
  decide (r.Expires < env.now) && !r.Code.Valid

/-- Modelled from the spec: `data.ClearOldGrantRequests`, the expiry sweep. -/
def ClearOldGrantRequests (env : Env) (s : Store) : Store :=
  { s with GrantRequests := s.GrantRequests.filter (fun r => !r.stale env) }

/-- Modelled from the spec: writing a grant request back under its token. -/
def Store.putGrantRequest (s : Store) (req : GrantRequest) : Store :=
  { s with GrantRequests := s.GrantRequests.map (fun r => if r.Token == req.Token then req else r) }

/-- Modelled from the spec: `GrantRequest.Update` (`updateGrantRequest`), writing the record
back under its token.  By the key constraint on codes it fails visibly when the code is
already the code of another request. -/
def GrantRequest.Update (req : GrantRequest) (s : Store) : Except String Store :=
  if req.Code.Valid && s.GrantRequests.any
      (fun r => r.Token != req.Token && r.Code.Valid && r.Code.String == req.Code.String) then
    .error "duplicate key value violates unique constraint"
  else
    .ok (s.putGrantRequest req)

/-- Modelled from the spec: `GrantRequest.Delete` (`deleteGrantRequest`). -/
def GrantRequest.Delete (req : GrantRequest) (s : Store) : Except String Store :=
  .ok { s with GrantRequests := s.GrantRequests.filter (fun r => r.Token != req.Token) }

/-- Modelled from the spec: `ClientApproval.Create`; approvals for the same pair
accumulate. -/
def ClientApproval.Create (a : ClientApproval) (s : Store) : Except String Store :=
  .ok { s with ClientApprovals := s.ClientApprovals ++ [a] }

/-- Modelled from the spec: the union of the scopes of all approvals of a client and an
account. -/
def approvedUnion (s : Store) (client account : String) : StringSet :=
  (s.ClientApprovals.filter (fun a => a.ClientUUID == client && a.AccountUUID == account)).foldr
    (fun a acc => a.Scope ++ acc) []

/-- Modelled from the spec: `GrantRequest.ApproveScopes`, the Approval Resolver.  It
approves iff the requested scope is a subset of the union of all approvals for the
request's client and account; on approval the approved scope becomes the requested
scope, on the record in hand and in the store. -/
def GrantRequest.ApproveScopes (req : GrantRequest) (s : Store) : Bool × GrantRequest × Store :=
  if StringSet.IsSuperset (approvedUnion s req.ClientUUID req.AccountUUID.String)
      req.ScopeRequested then
    let req1 := { req with ScopeApproved := req.ScopeRequested }
    (true, req1, s.putGrantRequest req1)
  else
    (false, req, s)

/-- Modelled from the spec: `AccessToken.Create`; the token gets its fixed lifetime and
the insert fails on a duplicate key. -/
def AccessToken.Create (t : AccessToken) (env : Env) (s : Store) : Except String Store :=
  if s.AccessTokens.any (fun x => x.Token == t.Token) then
    .error "duplicate key value violates unique constraint"
  else
    .ok { s with AccessTokens := s.AccessTokens ++ [{ t with Expires := env.now + env.TokenLifeTime }] }

/-- Modelled from the spec: `RefreshToken.Create`; the insert fails on a duplicate key. -/
def RefreshToken.Create (t : RefreshToken) (s : Store) : Except String Store :=
  if s.RefreshTokens.any (fun x => x.Token == t.Token) then
    .error "duplicate key value violates unique constraint"
  else
    .ok { s with RefreshTokens := s.RefreshTokens ++ [t] }

/-- Modelled from the spec: `data.GetRefreshToken`, lookup by the token string. -/
def GetRefreshToken (s : Store) (token : String) : Option RefreshToken :=
  s.RefreshTokens.find? (fun t => t.Token == token)

/-- Modelled from the spec: drawing a unique token.  The successive draws of the random
generator are given as a list; a draw that collides with a taken key is dropped and
the next one is tried. -/
def drawFresh (taken : String → Bool) : List String → Option (String × List String)
  | [] => none
  | t :: ts => if taken t then drawFresh taken ts else some (t, ts)

/-- Modelled from the spec: `Client.CreateGrantRequest` (spec section 4.1). -/
def Client.CreateGrantRequest (client : Client) (env : Env) (draws : List String) (s : Store)
    (responseType redirectURI state : String) (scope : StringSet) :
    Except String (GrantRequest × Store) :=
  if !(responseType == "code" || responseType == "token") then
    .error "InvalidResponseType"
  else if !client.RedirectURIs.Contains redirectURI then
    .error "InvalidRedirectURI"
  else if !client.ScopePermitted.IsSuperset scope then
    .error "InvalidScope"
  else
    match drawFresh (fun t => s.GrantRequests.any (fun r => r.Token == t)) draws with
    | none => .error "unable to create a unique token"
    | some (token, _) =>
      let request : GrantRequest :=
        { Token := token, GrantType := responseType, State := state, Code := NullString.null,
          ScopeRequested := scope, ScopeApproved := [], RedirectURI := redirectURI,
          ClientUUID := client.UUID, AccountUUID := NullString.null,
          CreatedAt := env.now, Expires := env.now + env.GrantReqLifeTime }
      .ok (request, { s with GrantRequests := s.GrantRequests ++ [request] })

/-- Modelled from the spec: `GrantRequest.ExchangeCodeForTokens` (spec section 4.3,
IssueCodeExchange).  An expired request fails and is deleted; otherwise the request is
deleted and one access token and one refresh token are created, bound to the client,
account and approved scope of the request.  Delete and mint are one atomic step. -/
def GrantRequest.ExchangeCodeForTokens (req : GrantRequest) (env : Env) (draws : List String)
    (s : Store) : Except String (String × String) × Store :=
  let deleted : Store :=
    { s with GrantRequests := s.GrantRequests.filter (fun r => r.Token != req.Token) }
  if req.Expires < env.now then
    (.error "Expired", deleted)
  else
    match drawFresh (fun t => s.AccessTokens.any (fun x => x.Token == t)) draws with
    | none => (.error "unable to create a unique token", s)
    | some (access, rest) =>
      match drawFresh (fun t => s.RefreshTokens.any (fun x => x.Token == t)) rest with
      | none => (.error "unable to create a unique token", s)
      | some (refresh, _) =>
        (.ok (access, refresh),
          { deleted with
            AccessTokens := s.AccessTokens ++
              [{ Token := access, Scope := req.ScopeApproved, ClientUUID := req.ClientUUID,
                 AccountUUID := req.AccountUUID.String, Expires := env.now + env.TokenLifeTime }]
            RefreshTokens := s.RefreshTokens ++
              [{ Token := refresh, Scope := req.ScopeApproved, ClientUUID := req.ClientUUID,
                 AccountUUID := req.AccountUUID.String }] })

/-! ## web: the handlers of `oauth.go` -/

/-- The body of the token endpoint's answer, `responseTokenData`. -/
structure responseTokenData where
  AccessToken : String
  RefreshToken : String
  TokenType : String
deriving DecidableEq, Repr

/-- What a handler writes to its `http.ResponseWriter`, or the panic it raises.
`errorHTML` and `errorJSON` stand for the calls of `PrintErrorHTML` and
`PrintErrorJSON` with their message and status; `redirect` is `http.Redirect` with the
`Cache-Control` header added before it. -/
inductive Response where
  | errorHTML (msg : String) (status : Nat)
  | errorJSON (msg : String) (status : Nat)
  | redirect (url : String) (status : Nat) (cacheControl : String)
  | json (cacheControl contentType : String) (body : responseTokenData)
  | panic (msg : String)
deriving DecidableEq, Repr

/-- The query parameters of `Authorize`. -/
structure authorizeData where
  ResponseType : String
  ClientId : String
  RedirectURI : String
  State : String
  Scope : List String
deriving DecidableEq, Repr

/-- The form of `Login`, `loginData`. -/
structure loginData where
  Login : String
  Password : String
  RequestID : String
deriving DecidableEq, Repr

/-- The form of `Approve`, `approveData`. -/
structure approveData where
  Client : String
  RequestID : String
  Scope : List String
deriving DecidableEq, Repr

/-- The form of `Token`, `requestTokenData`. -/
structure requestTokenData where
  RedirectURI : String
  Code : String
  GrantType : String
deriving DecidableEq, Repr

/-- The helper `finishCodeRequest`; `rnd` is the value of `util.RandomToken()`. -/
def finishCodeRequest (env : Env) (rnd : String) (s : Store) (request : GrantRequest) :
    Response × Store :=
  let request := { request with Code := { String := rnd, Valid := true } }
  match request.Update s with
  | .error err => (.panic err, s)
  | .ok s =>
    let scope := env.QueryEscape (stringsJoin request.ScopeApproved.Strings ",")
    let state := env.QueryEscape request.State
    let url := request.RedirectURI ++ "?scope=" ++ scope ++ "&state=" ++ state ++
      "&code=" ++ request.Code.String
    (.redirect url 302 "no-store", s)

/-- The helper `finishImplicitRequest`; `rnd` is the value of `util.RandomToken()`. -/
def finishImplicitRequest (env : Env) (rnd : String) (s : Store) (request : GrantRequest) :
    Response × Store :=
  match request.Delete s with
  | .error err => (.panic err, s)
  | .ok s =>
    let token : AccessToken :=
      { Token := rnd, ClientUUID := request.ClientUUID,
        AccountUUID := request.AccountUUID.String, Scope := request.ScopeApproved, Expires := 0 }
    match token.Create env s with
    | .error err => (.panic err, s)
    | .ok s =>
      let scope := env.QueryEscape (stringsJoin token.Scope.Strings ",")
      let state := env.QueryEscape request.State
      let url := request.RedirectURI ++ "?token_type=bearer&scope=" ++ scope ++ "&state=" ++
        state ++ "&access_token=" ++ token.Token
      (.redirect url 302 "no-store", s)

/-- The handler `Authorize`; `param` is the outcome of `util.ReadQueryIntoStruct`. -/
def Authorize (env : Env) (draws : List String) (s : Store) (param : Except String authorizeData) :
    Response × Store :=
  match param with
  | .error err => (.errorHTML err 400, s)
  | .ok param =>
    match GetClientByName s param.ClientId with
    | none => (.errorHTML ("Client '" ++ param.ClientId ++ "' does not exist") 400, s)
    | some client =>
      let scope := NewStringSet param.Scope
      match client.CreateGrantRequest env draws s param.ResponseType param.RedirectURI
          param.State scope with
      | .error err => (.errorHTML err 400, s)
      | .ok (request, s) =>
        (.redirect ("/oauth/login_page?request_id=" ++ request.Token) 302 "no-store", s)

/-- The handler `Login`; `form` is the outcome of `util.ReadFormIntoStruct`. -/
def Login (env : Env) (rnd : String) (s : Store) (form : Except String loginData) :
    Response × Store :=
  let s := ClearOldGrantRequests env s
  match form with
  | .error err => (.errorHTML err 400, s)
  | .ok loginParam =>
    match GetGrantRequest s loginParam.RequestID with
    | none => (.errorHTML "Grant request does not exist" 404, s)
    | some request =>
      match GetAccountByLogin s loginParam.Login with
      | none => (.redirect ("/oauth/login_page?request_id=" ++ request.Token) 401 "no-store", s)
      | some account =>
        if !account.VerifyPassword loginParam.Password then
          (.redirect ("/oauth/login_page?request_id=" ++ request.Token) 401 "no-store", s)
        else
          let request := { request with AccountUUID := { String := account.UUID, Valid := true } }
          match request.Update s with
          | .error err => (.panic err, s)
          | .ok s =>
            match request.ApproveScopes s with
            | (approved, request, s) =>
              if approved then
                if request.GrantType == "code" then
                  finishCodeRequest env rnd s request
                else
                  finishImplicitRequest env rnd s request
              else
                (.redirect ("/oauth/approve_page?request_id=" ++ request.Token) 302 "no-store", s)

/-- The handler `Approve`; `approveParam` is the form as read by
`util.ReadFormIntoStruct`, whose error the handler ignores. -/
def Approve (env : Env) (rnd : String) (s : Store) (approveParam : approveData) :
    Response × Store :=
  let s := ClearOldGrantRequests env s
  match GetGrantRequest s approveParam.RequestID with
  | none => (.errorHTML "Grant request does not exist" 404, s)
  | some request =>
    let approval : ClientApproval :=
      { Scope := NewStringSet approveParam.Scope, ClientUUID := request.ClientUUID,
        AccountUUID := request.AccountUUID.String }
    match approval.Create s with
    | .error err => (.panic err, s)
    | .ok s =>
      match request.ApproveScopes s with
      | (approved, request, s) =>
        if !approved then
          (.panic "Unable to approve requested scope", s)
        else if request.GrantType == "code" then
          finishCodeRequest env rnd s request
        else
          finishImplicitRequest env rnd s request

/-- The handler `Token`; `auth` is the outcome of `r.BasicAuth()` and `form` that of
`util.ReadFormIntoStruct`, read only once the client is authenticated. -/
def Token (env : Env) (draws : List String) (s : Store) (auth : Option (String × String))
    (form : Except String requestTokenData) : Response × Store :=
  let s := ClearOldGrantRequests env s
  match auth with
  | none => (.errorJSON "No credentials provided" 401, s)
  | some (clientName, clientSecret) =>
    match GetClientByName s clientName with
    | none => (.errorJSON "Wrong client id or client secret" 401, s)
    | some client =>
      if clientSecret != client.Secret then
        (.errorJSON "Wrong client id or client secret" 401, s)
      else
        match form with
        | .error err => (.errorJSON err 400, s)
        | .ok requestData =>
          if requestData.GrantType != "authorization_code" then
            (.errorJSON "Unsupported grant type" 400, s)
          else
            match GetGrantRequestByCode s requestData.Code with
            | none => (.errorJSON "Invalid grant code" 401, s)
            | some request =>
              match request.ExchangeCodeForTokens env draws s with
              | (.error _, s) => (.errorJSON "Invalid grant code" 401, s)
              | (.ok (access, refresh), s) =>
                (.json "no-cache" "application/json"
                  { TokenType := "Bearer", AccessToken := access, RefreshToken := refresh }, s)

/-! ## test data -/

/-- A clock at time 100 with lifetimes 50 and 1000; `QueryEscape` is the identity, as it
is on the unreserved characters used below. -/
def env0 : Env := { now := 100, GrantReqLifeTime := 50, TokenLifeTime := 1000, QueryEscape := id }

/-- The client `gin`. -/
def clientGin : Client :=
  { UUID := "c-gin", Name := "gin", Secret := "secret", RedirectURIs := ["https://gin/cb"],
    ScopePermitted := ["read", "write"] }

/-- A second client. -/
def clientWiki : Client :=
  { UUID := "c-wiki", Name := "wiki", Secret := "geheim", RedirectURIs := ["https://wiki/cb"],
    ScopePermitted := ["read"] }

/-- The account `alice`. -/
def alice : Account := { UUID := "u-alice", Login := "alice", Password := "pwA" }

/-- The account `bob`. -/
def bob : Account := { UUID := "u-bob", Login := "bob", Password := "pwB" }

/-- A store with the two clients and the two accounts and nothing else. -/
def store0 : Store :=
  { Clients := [clientGin, clientWiki], Accounts := [alice, bob], GrantRequests := [],
    ClientApprovals := [], AccessTokens := [], RefreshTokens := [] }

/-- A pending code-grant request of client `gin` for the scope `read`, `write`, created at
time 90, to which `alice` has logged in. -/
def requestR1 : GrantRequest :=
  { Token := "R1", GrantType := "code", State := "st", Code := NullString.null,
    ScopeRequested := ["read", "write"], ScopeApproved := [], RedirectURI := "https://gin/cb",
    ClientUUID := "c-gin", AccountUUID := { String := "u-alice", Valid := true },
    CreatedAt := 90, Expires := 140 }

/-- A pending implicit-grant request of client `gin` for the scope `read`, freshly created:
no account is attached. -/
def requestR2 : GrantRequest :=
  { Token := "R2", GrantType := "token", State := "st", Code := NullString.null,
    ScopeRequested := ["read"], ScopeApproved := [], RedirectURI := "https://gin/cb",
    ClientUUID := "c-gin", AccountUUID := NullString.null, CreatedAt := 95, Expires := 145 }

/-- An unfinished request whose expiry (time 60) has passed at time 100. -/
def requestOld : GrantRequest :=
  { Token := "R0", GrantType := "code", State := "st", Code := NullString.null,
    ScopeRequested := ["read"], ScopeApproved := [], RedirectURI := "https://gin/cb",
    ClientUUID := "c-gin", AccountUUID := NullString.null, CreatedAt := 10, Expires := 60 }

/-- The store with the pending requests `R1` and `R2`. -/
def store1 : Store := { store0 with GrantRequests := [requestR1, requestR2] }

/-- The store with the expired request `R0`. -/
def storeOld : Store := { store0 with GrantRequests := [requestOld] }

/-- A code-grant request of client `gin` in state `code-issued`: `alice` has logged in, the
scope `read` is approved and the one-time code `K1` is set. -/
def requestR3 : GrantRequest :=
  { Token := "R3", GrantType := "code", State := "st",
    Code := { String := "K1", Valid := true },
    ScopeRequested := ["read"], ScopeApproved := ["read"], RedirectURI := "https://gin/cb",
    ClientUUID := "c-gin", AccountUUID := { String := "u-alice", Valid := true },
    CreatedAt := 80, Expires := 130 }

/-- The store with the code-issued request `R3` and the pending request `R1`. -/
def store2 : Store := { store0 with GrantRequests := [requestR3, requestR1] }

/-- A second code-issued request of client `gin` that carries the same code `K1` as `R3`. -/
def requestR4 : GrantRequest :=
  { Token := "R4", GrantType := "code", State := "st",
    Code := { String := "K1", Valid := true },
    ScopeRequested := ["read"], ScopeApproved := ["read"], RedirectURI := "https://gin/cb",
    ClientUUID := "c-gin", AccountUUID := { String := "u-bob", Valid := true },
    CreatedAt := 85, Expires := 135 }

/-- A store that breaks the key constraint on codes: `R3` and `R4` carry the same code. -/
def storeDup : Store := { store0 with GrantRequests := [requestR3, requestR4] }

/-- The store with the pending requests `R1` and `R2` in which `bob` has already approved
the scope `read` for client `gin`. -/
def store3 : Store := { store1 with ClientApprovals := [⟨["read"], "c-gin", "u-bob"⟩] }

/-! ## call sequences and store invariants -/

/-- One call of a public entry point, with everything the handler receives. -/
inductive Call where
  | authorize (env : Env) (draws : List String) (param : Except String authorizeData)
  | login (env : Env) (rnd : String) (form : Except String loginData)
  | approve (env : Env) (rnd : String) (approveParam : approveData)
  | token (env : Env) (draws : List String) (auth : Option (String × String))
      (form : Except String requestTokenData)

/-- Running one call on a store. -/
def Call.run : Call → Store → Response × Store
  | .authorize env draws param, s => Authorize env draws s param
  | .login env rnd form, s => Login env rnd s form
  | .approve env rnd approveParam, s => Approve env rnd s approveParam
  | .token env draws auth form, s => Token env draws s auth form

/-- The random token a call hands to its finish step, if it has one. -/
def Call.randomToken : Call → Option String
  | .login _ rnd _ => some rnd
  | .approve _ rnd _ => some rnd
  | _ => none

/-- The store after a sequence of calls. -/
def runCalls : List Call → Store → Store
  | [], s => s
  | c :: cs, s => runCalls cs (c.run s).2

/-- The key constraint on codes: two grant requests with the same valid code are the same
record (they have the same token). -/
abbrev Store.codesUnique (s : Store) : Prop :=
  ∀ a ∈ s.GrantRequests, ∀ b ∈ s.GrantRequests,
    a.Code.Valid = true → b.Code.Valid = true → a.Code.String = b.Code.String → a.Token = b.Token

/-- No grant request of the store carries the code. -/
abbrev Store.codeUnused (s : Store) (code : String) : Prop :=
  ∀ r ∈ s.GrantRequests, r.Code.Valid = true → r.Code.String ≠ code

/-! ## basic facts about the persistence primitives -/

@[simp] theorem ClearOldGrantRequests_Clients (env : Env) (s : Store) :
    (ClearOldGrantRequests env s).Clients = s.Clients := rfl

@[simp] theorem ClearOldGrantRequests_Accounts (env : Env) (s : Store) :
    (ClearOldGrantRequests env s).Accounts = s.Accounts := rfl

@[simp] theorem ClearOldGrantRequests_ClientApprovals (env : Env) (s : Store) :
    (ClearOldGrantRequests env s).ClientApprovals = s.ClientApprovals := rfl

@[simp] theorem ClearOldGrantRequests_AccessTokens (env : Env) (s : Store) :
    (ClearOldGrantRequests env s).AccessTokens = s.AccessTokens := rfl

@[simp] theorem ClearOldGrantRequests_RefreshTokens (env : Env) (s : Store) :
    (ClearOldGrantRequests env s).RefreshTokens = s.RefreshTokens := rfl

@[simp] theorem GetClientByName_ClearOld (env : Env) (s : Store) (name : String) :
    GetClientByName (ClearOldGrantRequests env s) name = GetClientByName s name := rfl

@[simp] theorem GetAccountByLogin_ClearOld (env : Env) (s : Store) (login : String) :
    GetAccountByLogin (ClearOldGrantRequests env s) login = GetAccountByLogin s login := rfl

theorem ClearOldGrantRequests_sublist (env : Env) (s : Store) :
    (ClearOldGrantRequests env s).GrantRequests.Sublist s.GrantRequests :=
  List.filter_sublist _

theorem ClearOldGrantRequests_idem (env : Env) (s : Store) :
    ClearOldGrantRequests env (ClearOldGrantRequests env s) = ClearOldGrantRequests env s := by
  simp [ClearOldGrantRequests, List.filter_filter]

theorem GetGrantRequest_some {s : Store} {token : String} {r : GrantRequest}
    (h : GetGrantRequest s token = some r) : r ∈ s.GrantRequests ∧ r.Token = token := by
  unfold GetGrantRequest at h
  exact ⟨List.mem_of_find?_eq_some h, by simpa using List.find?_some h⟩

theorem find?_replace_same (req : GrantRequest) (l : List GrantRequest)
    (h : ∃ r ∈ l, r.Token = req.Token) :
    (l.map (fun r => if r.Token == req.Token then req else r)).find?
      (fun r => r.Token == req.Token) = some req := by
  induction l with
  | nil => simp at h
  | cons a l ih =>
    simp only [List.map_cons, List.find?_cons]
    by_cases ha : a.Token = req.Token
    · simp [ha]
    · have hl : ∃ r ∈ l, r.Token = req.Token := by
        obtain ⟨r, hr, hrt⟩ := h
        rcases List.mem_cons.1 hr with rfl | hr
        · exact absurd hrt ha
        · exact ⟨r, hr, hrt⟩
      have hb : (a.Token == req.Token) = false := by simpa using ha
      simp only [hb, Bool.false_eq_true, if_false]
      exact ih hl

theorem GetGrantRequest_put_same (s : Store) (req : GrantRequest)
    (h : ∃ r ∈ s.GrantRequests, r.Token = req.Token) :
    GetGrantRequest (s.putGrantRequest req) req.Token = some req :=
  find?_replace_same req s.GrantRequests h

theorem IsSuperset_iff (a b : StringSet) : a.IsSuperset b = true ↔ ∀ x ∈ b, x ∈ a := by
  simp [StringSet.IsSuperset, List.all_eq_true]

theorem mem_foldr_scopes (x : String) (l : List ClientApproval) :
    x ∈ l.foldr (fun a acc => a.Scope ++ acc) [] ↔ ∃ a ∈ l, x ∈ a.Scope := by
  induction l with
  | nil => simp
  | cons a l ih => simp [List.foldr_cons, List.mem_append, ih]

theorem mem_approvedUnion (s : Store) (client account x : String) :
    x ∈ approvedUnion s client account ↔
      ∃ a ∈ s.ClientApprovals, (a.ClientUUID = client ∧ a.AccountUUID = account) ∧ x ∈ a.Scope := by
  unfold approvedUnion
  rw [mem_foldr_scopes]
  constructor
  · rintro ⟨a, ha, hx⟩
    rw [List.mem_filter] at ha
    exact ⟨a, ha.1, by simpa using ha.2, hx⟩
  · rintro ⟨a, ha, hk, hx⟩
    exact ⟨a, List.mem_filter.2 ⟨ha, by simpa using hk⟩, hx⟩

theorem mem_approvedUnion_Create (s : Store) (ap : ClientApproval) (client account x : String) :
    x ∈ approvedUnion { s with ClientApprovals := s.ClientApprovals ++ [ap] } client account ↔
      x ∈ approvedUnion s client account ∨
        ((ap.ClientUUID = client ∧ ap.AccountUUID = account) ∧ x ∈ ap.Scope) := by
  simp only [mem_approvedUnion, List.mem_append, List.mem_singleton]
  constructor
  · rintro ⟨a, ha | rfl, hk, hx⟩
    · exact Or.inl ⟨a, ha, hk, hx⟩
    · exact Or.inr ⟨hk, hx⟩
  · rintro (⟨a, ha, hk, hx⟩ | ⟨hk, hx⟩)
    · exact ⟨a, Or.inl ha, hk, hx⟩
    · exact ⟨ap, Or.inr rfl, hk, hx⟩

theorem Update_cases (req : GrantRequest) (s : Store) :
    (∃ err, req.Update s = .error err ∧ err ≠ "Unable to approve requested scope")
    ∨ (req.Update s = .ok (s.putGrantRequest req)
        ∧ (req.Code.Valid = true → ∀ r ∈ s.GrantRequests, r.Token ≠ req.Token →
            r.Code.Valid = true → r.Code.String ≠ req.Code.String)) := by
  unfold GrantRequest.Update
  split
  · exact Or.inl ⟨_, rfl, by decide⟩
  · rename_i h2
    refine Or.inr ⟨rfl, ?_⟩
    intro hv r hr hne hrv
    simp only [Bool.and_eq_true, List.any_eq_true, bne_iff_ne, ne_eq, beq_iff_eq, not_and,
      not_exists] at h2
    exact h2 hv r hr ⟨hne, hrv⟩

theorem finishCodeRequest_cases (env : Env) (rnd : String) (s : Store) (request : GrantRequest) :
    (∃ err, finishCodeRequest env rnd s request = (.panic err, s)
        ∧ err ≠ "Unable to approve requested scope")
    ∨ ((∃ url, finishCodeRequest env rnd s request = (.redirect url 302 "no-store",
          s.putGrantRequest { request with Code := { String := rnd, Valid := true } }))
        ∧ (∀ r ∈ s.GrantRequests, r.Token ≠ request.Token →
            r.Code.Valid = true → r.Code.String ≠ rnd)) := by
  rcases Update_cases { request with Code := { String := rnd, Valid := true } } s with
    ⟨err, he, hne⟩ | ⟨hok, hun⟩
  · exact Or.inl ⟨err, by simp [finishCodeRequest, he], hne⟩
  · exact Or.inr ⟨⟨_, by simp only [finishCodeRequest, hok]; rfl⟩, hun rfl⟩

theorem finishImplicitRequest_cases (env : Env) (rnd : String) (s : Store)
    (request : GrantRequest) :
    (∃ err, finishImplicitRequest env rnd s request = (.panic err,
          { s with GrantRequests := s.GrantRequests.filter (fun r => r.Token != request.Token) })
        ∧ err ≠ "Unable to approve requested scope")
    ∨ (∃ url, finishImplicitRequest env rnd s request = (.redirect url 302 "no-store",
          { s with
            GrantRequests := s.GrantRequests.filter (fun r => r.Token != request.Token),
            AccessTokens := s.AccessTokens ++
              [⟨rnd, request.ScopeApproved, request.ClientUUID, request.AccountUUID.String,
                env.now + env.TokenLifeTime⟩] })) := by
  by_cases h : (s.AccessTokens.any (fun x => x.Token == rnd)) = true
  · exact Or.inl ⟨_, by simp only [finishImplicitRequest, GrantRequest.Delete,
      AccessToken.Create, h]; rfl, by decide⟩
  · exact Or.inr ⟨_, by simp only [finishImplicitRequest, GrantRequest.Delete,
      AccessToken.Create, h]; rfl⟩

theorem ApproveScopes_fst (req : GrantRequest) (s : Store) :
    (req.ApproveScopes s).1 = true ↔
      ∀ x ∈ req.ScopeRequested, x ∈ approvedUnion s req.ClientUUID req.AccountUUID.String := by
  unfold GrantRequest.ApproveScopes
  split
  · rename_i h
    simpa using (IsSuperset_iff _ _).1 h
  · rename_i h
    rw [IsSuperset_iff] at h
    simpa using h

/-! ## properties of every grant request of the store -/

theorem mem_putGrantRequest {s : Store} {req r : GrantRequest}
    (h : r ∈ (s.putGrantRequest req).GrantRequests) :
    r = req ∨ (r ∈ s.GrantRequests ∧ r.Token ≠ req.Token) := by
  simp only [Store.putGrantRequest, List.mem_map] at h
  obtain ⟨a, ha, hr⟩ := h
  split at hr
  · exact Or.inl hr.symm
  · rename_i hne
    exact Or.inr (hr ▸ ⟨ha, by simpa using hne⟩)

theorem forall_putGrantRequest (Q : GrantRequest → Prop) (s : Store) (req : GrantRequest)
    (hS : ∀ r ∈ s.GrantRequests, Q r) (hR : Q req) :
    ∀ r ∈ (s.putGrantRequest req).GrantRequests, Q r := by
  intro r hr
  rcases mem_putGrantRequest hr with rfl | h
  · exact hR
  · exact hS r h.1

theorem ApproveScopes_cases (req : GrantRequest) (s : Store) :
    req.ApproveScopes s = (true, { req with ScopeApproved := req.ScopeRequested },
        s.putGrantRequest { req with ScopeApproved := req.ScopeRequested })
    ∨ req.ApproveScopes s = (false, req, s) := by
  unfold GrantRequest.ApproveScopes
  split
  · exact Or.inl rfl
  · exact Or.inr rfl

theorem ApproveScopes_forall (Q : GrantRequest → Prop)
    (hscope : ∀ r sc, Q r → Q { r with ScopeApproved := sc })
    (req : GrantRequest) (s : Store) (hS : ∀ r ∈ s.GrantRequests, Q r) (hR : Q req) :
    Q (req.ApproveScopes s).2.1 ∧ ∀ r ∈ (req.ApproveScopes s).2.2.GrantRequests, Q r := by
  rcases ApproveScopes_cases req s with h | h <;> rw [h]
  · exact ⟨hscope _ _ hR, forall_putGrantRequest Q s _ hS (hscope _ _ hR)⟩
  · exact ⟨hR, hS⟩

theorem finishCodeRequest_forall (Q : GrantRequest → Prop) (env : Env) (rnd : String)
    (hcode : ∀ r, Q r → Q { r with Code := { String := rnd, Valid := true } })
    (s : Store) (req : GrantRequest) (hS : ∀ r ∈ s.GrantRequests, Q r) (hR : Q req) :
    ∀ r ∈ (finishCodeRequest env rnd s req).2.GrantRequests, Q r := by
  rcases finishCodeRequest_cases env rnd s req with ⟨err, he, -⟩ | ⟨⟨url, he⟩, -⟩ <;> rw [he]
  · exact hS
  · exact forall_putGrantRequest Q s _ hS (hcode _ hR)

theorem finishImplicitRequest_forall (Q : GrantRequest → Prop) (env : Env) (rnd : String)
    (s : Store) (req : GrantRequest) (hS : ∀ r ∈ s.GrantRequests, Q r) :
    ∀ r ∈ (finishImplicitRequest env rnd s req).2.GrantRequests, Q r := by
  rcases finishImplicitRequest_cases env rnd s req with ⟨err, he, -⟩ | ⟨url, he⟩ <;> rw [he] <;>
    exact fun r hr => hS r (List.mem_filter.1 hr).1

theorem resolve_and_finish_forall (Q : GrantRequest → Prop) (env : Env) (rnd : String)
    (hscope : ∀ r sc, Q r → Q { r with ScopeApproved := sc })
    (hcode : ∀ r, Q r → Q { r with Code := { String := rnd, Valid := true } })
    (s : Store) (req : GrantRequest) (other : GrantRequest → Store → Response × Store)
    (hother : ∀ r t, (other r t).2 = t)
    (hS : ∀ r ∈ s.GrantRequests, Q r) (hR : Q req) :
    ∀ r ∈ (match req.ApproveScopes s with
        | (approved, request, s) =>
          if approved then
            if request.GrantType == "code" then finishCodeRequest env rnd s request
            else finishImplicitRequest env rnd s request
          else other request s).2.GrantRequests, Q r := by
  have h := ApproveScopes_forall Q hscope req s hS hR
  rcases hres : req.ApproveScopes s with ⟨approved, request1, s1⟩
  rw [hres] at h
  simp only
  cases approved
  · simp only [Bool.false_eq_true, if_false, hother]
    exact h.2
  · simp only [if_true]
    split
    · exact finishCodeRequest_forall Q env rnd hcode s1 request1 h.2 h.1
    · exact finishImplicitRequest_forall Q env rnd s1 request1 h.2

theorem ClearOldGrantRequests_swept (env : Env) (s : Store) :
    ∀ r ∈ (ClearOldGrantRequests env s).GrantRequests, r.stale env = false := by
  intro r hr
  simpa using (List.mem_filter.1 hr).2

theorem ClearOldGrantRequests_eq_self (env : Env) (s : Store)
    (h : ∀ r ∈ s.GrantRequests, r.stale env = false) : ClearOldGrantRequests env s = s := by
  have : s.GrantRequests.filter (fun r => !r.stale env) = s.GrantRequests :=
    List.filter_eq_self.2 (fun r hr => by simp [h r hr])
  simp [ClearOldGrantRequests, this]

theorem Login_forall (Q : GrantRequest → Prop) (env : Env) (rnd : String)
    (hacc : ∀ r a, Q r → Q { r with AccountUUID := a })
    (hscope : ∀ r sc, Q r → Q { r with ScopeApproved := sc })
    (hcode : ∀ r, Q r → Q { r with Code := { String := rnd, Valid := true } })
    (s : Store) (form : Except String loginData)
    (hS : ∀ r ∈ (ClearOldGrantRequests env s).GrantRequests, Q r) :
    ∀ r ∈ (Login env rnd s form).2.GrantRequests, Q r := by
  unfold Login
  simp only
  split
  · exact hS
  · split
    · exact hS
    · rename_i loginParam request hreq
      have hR : Q request := hS _ (GetGrantRequest_some hreq).1
      split
      · exact hS
      · rename_i account hacct
        split
        · exact hS
        · rcases Update_cases { request with AccountUUID := { String := account.UUID, Valid := true } }
            (ClearOldGrantRequests env s) with ⟨err, he, -⟩ | ⟨hok, -⟩
          · rw [he]; exact hS
          · rw [hok]
            exact resolve_and_finish_forall Q env rnd hscope hcode _ _
              (fun request s => (.redirect ("/oauth/approve_page?request_id=" ++ request.Token)
                302 "no-store", s)) (fun _ _ => rfl)
              (forall_putGrantRequest Q _ _ hS (hacc _ _ hR)) (hacc _ _ hR)

theorem Approve_forall (Q : GrantRequest → Prop) (env : Env) (rnd : String)
    (hscope : ∀ r sc, Q r → Q { r with ScopeApproved := sc })
    (hcode : ∀ r, Q r → Q { r with Code := { String := rnd, Valid := true } })
    (s : Store) (approveParam : approveData)
    (hS : ∀ r ∈ (ClearOldGrantRequests env s).GrantRequests, Q r) :
    ∀ r ∈ (Approve env rnd s approveParam).2.GrantRequests, Q r := by
  unfold Approve
  simp only
  split
  · exact hS
  · rename_i request hreq
    have hR : Q request := hS _ (GetGrantRequest_some hreq).1
    simp only [ClientApproval.Create]
    have h := ApproveScopes_forall Q hscope request
      { ClearOldGrantRequests env s with
        ClientApprovals := (ClearOldGrantRequests env s).ClientApprovals ++
          [⟨NewStringSet approveParam.Scope, request.ClientUUID, request.AccountUUID.String⟩] }
      hS hR
    revert h
    rcases request.ApproveScopes _ with ⟨approved, request1, s1⟩
    intro h
    simp only
    cases approved
    · simpa using h.2
    · simp only [Bool.not_true, Bool.false_eq_true, if_false]
      split
      · exact finishCodeRequest_forall Q env rnd hcode s1 request1 h.2 h.1
      · exact finishImplicitRequest_forall Q env rnd s1 request1 h.2

theorem Token_sublist (env : Env) (draws : List String) (s : Store)
    (auth : Option (String × String)) (form : Except String requestTokenData) :
    (Token env draws s auth form).2.GrantRequests.Sublist
      (ClearOldGrantRequests env s).GrantRequests := by
  unfold Token
  simp only
  split
  · exact List.Sublist.refl _
  · split
    · exact List.Sublist.refl _
    · split
      · exact List.Sublist.refl _
      · split
        · exact List.Sublist.refl _
        · split
          · exact List.Sublist.refl _
          · split
            · exact List.Sublist.refl _
            · rename_i request hreq
              unfold GrantRequest.ExchangeCodeForTokens
              simp only
              split
              · rename_i hx
                split at hx
                · cases hx
                  exact List.filter_sublist _
                · split at hx
                  · cases hx; exact List.Sublist.refl _
                  · split at hx
                    · cases hx; exact List.Sublist.refl _
                    · cases hx
              · rename_i hx
                split at hx
                · cases hx
                · split at hx
                  · cases hx
                  · split at hx
                    · cases hx
                    · cases hx
                      exact List.filter_sublist _

theorem Update_ok_of (req : GrantRequest) (s : Store)
    (hun : req.Code.Valid = true → ∀ r ∈ s.GrantRequests, r.Token ≠ req.Token →
      r.Code.Valid = true → r.Code.String ≠ req.Code.String) :
    req.Update s = .ok (s.putGrantRequest req) := by
  have h2 : (req.Code.Valid && s.GrantRequests.any (fun r => r.Token != req.Token && r.Code.Valid
      && r.Code.String == req.Code.String)) = false := by
    cases hv : req.Code.Valid
    · rfl
    · simp only [Bool.true_and]
      rw [List.any_eq_false]
      intro r hr
      simp only [Bool.and_eq_true, bne_iff_ne, ne_eq, beq_iff_eq, not_and]
      intro a
      exact hun hv r hr a.1 a.2
  simp [GrantRequest.Update, h2]

theorem codesUnique_ClearOld (env : Env) (s : Store) (h : s.codesUnique) :
    (ClearOldGrantRequests env s).codesUnique :=
  fun a ha b hb => h a (List.mem_filter.1 ha).1 b (List.mem_filter.1 hb).1

theorem codeUnused_iff (s : Store) (code : String) :
    s.codeUnused code ↔ GetGrantRequestByCode s code = none := by
  simp [Store.codeUnused, GetGrantRequestByCode, List.find?_eq_none]

theorem Authorize_cases (env : Env) (draws : List String) (s : Store)
    (param : Except String authorizeData) :
    (Authorize env draws s param).2 = s
    ∨ ∃ req : GrantRequest, req.Code = NullString.null ∧ req.AccountUUID = NullString.null
        ∧ (Authorize env draws s param).2 = { s with GrantRequests := s.GrantRequests ++ [req] } := by
  unfold Authorize
  split
  · exact Or.inl rfl
  · split
    · exact Or.inl rfl
    · simp only
      split
      · exact Or.inl rfl
      · rename_i client hclient request s1 hcreate
        unfold Client.CreateGrantRequest at hcreate
        split at hcreate
        · cases hcreate
        · split at hcreate
          · cases hcreate
          · split at hcreate
            · cases hcreate
            · split at hcreate
              · cases hcreate
              · simp only [Except.ok.injEq, Prod.mk.injEq] at hcreate
                obtain ⟨h1, h2⟩ := hcreate
                subst h1 h2
                exact Or.inr ⟨_, rfl, rfl, rfl⟩

theorem Call_run_codeUnused (c : Call) (s : Store) (code : String)
    (hc : c.randomToken ≠ some code) (h : s.codeUnused code) : (c.run s).2.codeUnused code := by
  have hsweep : ∀ env, ∀ r ∈ (ClearOldGrantRequests env s).GrantRequests,
      r.Code.Valid = true → r.Code.String ≠ code :=
    fun env r hr => h r (List.mem_filter.1 hr).1
  cases c with
  | authorize env draws param =>
    rcases Authorize_cases env draws s param with he | ⟨req, hcode, -, he⟩
    · simp only [Call.run, he]; exact h
    · simp only [Call.run, he]
      intro r hr
      rcases List.mem_append.1 hr with hr | hr
      · exact h r hr
      · rw [List.mem_singleton.1 hr, hcode]
        intro hv
        cases hv
  | login env rnd form =>
    have hrnd : rnd ≠ code := fun e => hc (by simp [Call.randomToken, e])
    exact Login_forall (fun r => r.Code.Valid = true → r.Code.String ≠ code) env rnd
      (fun _ _ hq => hq) (fun _ _ hq => hq) (fun _ _ _ => hrnd) s form (hsweep env)
  | approve env rnd approveParam =>
    have hrnd : rnd ≠ code := fun e => hc (by simp [Call.randomToken, e])
    exact Approve_forall (fun r => r.Code.Valid = true → r.Code.String ≠ code) env rnd
      (fun _ _ hq => hq) (fun _ _ _ => hrnd) s approveParam (hsweep env)
  | token env draws auth form =>
    exact fun r hr => hsweep env r ((Token_sublist env draws s auth form).subset hr)

theorem runCalls_codeUnused (calls : List Call) (s : Store) (code : String)
    (hc : ∀ c ∈ calls, c.randomToken ≠ some code) (h : s.codeUnused code) :
    (runCalls calls s).codeUnused code := by
  induction calls generalizing s with
  | nil => exact h
  | cons c cs ih =>
    exact ih (c.run s).2 (fun c1 h1 => hc c1 (List.mem_cons_of_mem _ h1))
      (Call_run_codeUnused c s code (hc c (List.mem_cons_self _ _)) h)

theorem Token_of_codeUnused (env : Env) (draws : List String) (s : Store) (name uri code : String)
    (client : Client) (hclient : GetClientByName s name = some client)
    (h : s.codeUnused code) :
    Token env draws s (some (name, client.Secret)) (.ok ⟨uri, code, "authorization_code"⟩)
      = (.errorJSON "Invalid grant code" 401, ClearOldGrantRequests env s) := by
  have h1 : GetGrantRequestByCode (ClearOldGrantRequests env s) code = none := by
    rw [← codeUnused_iff]
    exact fun r hr => h r (List.mem_filter.1 hr).1
  simp [Token, hclient, h1]

theorem Token_success (env : Env) (draws : List String) (s s1 : Store)
    (auth : Option (String × String)) (uri code grantType cc ct : String)
    (body : responseTokenData)
    (h : Token env draws s auth (.ok ⟨uri, code, grantType⟩) = (.json cc ct body, s1)) :
    ∃ request, GetGrantRequestByCode (ClearOldGrantRequests env s) code = some request
      ∧ s1.GrantRequests = (ClearOldGrantRequests env s).GrantRequests.filter
          (fun r => r.Token != request.Token) := by
  unfold Token at h
  simp only at h
  split at h
  · cases h
  · split at h
    · cases h
    · split at h
      · cases h
      · split at h
        · cases h
        · split at h
          · cases h
          · rename_i request hreq
            refine ⟨request, hreq, ?_⟩
            unfold GrantRequest.ExchangeCodeForTokens at h
            simp only at h
            split at h
            · cases h
            · rename_i hx
              simp only [Prod.mk.injEq] at h
              rw [← h.2]
              split at hx
              · cases hx
              · split at hx
                · cases hx
                · split at hx
                  · cases hx
                  · cases hx
                    rfl

/-! ## the key constraint on codes is kept by every entry point -/

theorem codesUnique_putGrantRequest (s : Store) (req : GrantRequest) (h : s.codesUnique)
    (hc : req.Code.Valid = true → ∀ r ∈ s.GrantRequests, r.Token ≠ req.Token →
      r.Code.Valid = true → r.Code.String ≠ req.Code.String) :
    (s.putGrantRequest req).codesUnique := by
  intro a ha b hb hva hvb hab
  rcases mem_putGrantRequest ha with ea | ⟨ha1, hna⟩
  · rcases mem_putGrantRequest hb with eb | ⟨hb1, hnb⟩
    · rw [ea, eb]
    · rw [ea] at hva hab
      exact absurd hab.symm (hc hva b hb1 hnb hvb)
  · rcases mem_putGrantRequest hb with eb | ⟨hb1, hnb⟩
    · rw [eb] at hvb hab
      exact absurd hab (hc hvb a ha1 hna hva)
    · exact h a ha1 b hb1 hva hvb hab

theorem codeFree_putGrantRequest (s : Store) (req req1 : GrantRequest)
    (ht : req1.Token = req.Token) (hcode : req1.Code = req.Code)
    (hc : req.Code.Valid = true → ∀ r ∈ s.GrantRequests, r.Token ≠ req.Token →
      r.Code.Valid = true → r.Code.String ≠ req.Code.String) :
    req1.Code.Valid = true → ∀ r ∈ (s.putGrantRequest req).GrantRequests, r.Token ≠ req1.Token →
      r.Code.Valid = true → r.Code.String ≠ req1.Code.String := by
  intro hv r hr hne hrv
  rw [hcode] at hv ⊢
  rw [ht] at hne
  rcases mem_putGrantRequest hr with rfl | ⟨hr, -⟩
  · exact absurd rfl hne
  · exact hc hv r hr hne hrv

theorem codeFree_of_mem (s : Store) (req req1 : GrantRequest) (h : s.codesUnique)
    (hmem : req ∈ s.GrantRequests) (ht : req1.Token = req.Token) (hcode : req1.Code = req.Code) :
    req1.Code.Valid = true → ∀ r ∈ s.GrantRequests, r.Token ≠ req1.Token →
      r.Code.Valid = true → r.Code.String ≠ req1.Code.String := by
  intro hv r hr hne hrv hc
  rw [hcode] at hv hc
  rw [ht] at hne
  exact hne (h r hr req hmem hrv hv hc)

theorem finishCodeRequest_codesUnique (env : Env) (rnd : String) (s : Store)
    (req : GrantRequest) (h : s.codesUnique) :
    (finishCodeRequest env rnd s req).2.codesUnique := by
  rcases finishCodeRequest_cases env rnd s req with ⟨err, he, -⟩ | ⟨⟨url, he⟩, hfree⟩ <;> rw [he]
  · exact h
  · exact codesUnique_putGrantRequest s _ h (fun _ => hfree)

theorem finishImplicitRequest_codesUnique (env : Env) (rnd : String) (s : Store)
    (req : GrantRequest) (h : s.codesUnique) :
    (finishImplicitRequest env rnd s req).2.codesUnique := by
  rcases finishImplicitRequest_cases env rnd s req with ⟨err, he, -⟩ | ⟨url, he⟩ <;> rw [he] <;>
    exact fun a ha b hb => h a (List.mem_filter.1 ha).1 b (List.mem_filter.1 hb).1

theorem resolve_and_finish_codesUnique (env : Env) (rnd : String) (s : Store)
    (req : GrantRequest) (other : GrantRequest → Store → Response × Store)
    (hother : ∀ r t, (other r t).2 = t) (h : s.codesUnique)
    (hc : req.Code.Valid = true → ∀ r ∈ s.GrantRequests, r.Token ≠ req.Token →
      r.Code.Valid = true → r.Code.String ≠ req.Code.String) :
    (match req.ApproveScopes s with
      | (approved, request, s) =>
        if approved then
          if request.GrantType == "code" then finishCodeRequest env rnd s request
          else finishImplicitRequest env rnd s request
        else other request s).2.codesUnique := by
  rcases ApproveScopes_cases req s with hres | hres <;> rw [hres] <;> simp only
  · have h1 := codesUnique_putGrantRequest s { req with ScopeApproved := req.ScopeRequested } h hc
    simp only [if_true]
    split
    · exact finishCodeRequest_codesUnique env rnd _ _ h1
    · exact finishImplicitRequest_codesUnique env rnd _ _ h1
  · simp only [Bool.false_eq_true, if_false, hother]
    exact h

theorem Login_codesUnique (env : Env) (rnd : String) (s : Store)
    (form : Except String loginData) (h : s.codesUnique) :
    (Login env rnd s form).2.codesUnique := by
  have hs := codesUnique_ClearOld env s h
  unfold Login
  simp only
  split
  · exact hs
  · split
    · exact hs
    · rename_i loginParam request hreq
      split
      · exact hs
      · rename_i account hacct
        split
        · exact hs
        · rcases Update_cases { request with AccountUUID := { String := account.UUID, Valid := true } }
            (ClearOldGrantRequests env s) with ⟨err, he, -⟩ | ⟨hok, hfree⟩
          · rw [he]; exact hs
          · rw [hok]
            exact resolve_and_finish_codesUnique env rnd _ _
              (fun request s => (.redirect ("/oauth/approve_page?request_id=" ++ request.Token)
                302 "no-store", s)) (fun _ _ => rfl)
              (codesUnique_putGrantRequest _ _ hs hfree)
              (codeFree_putGrantRequest _ _ _ rfl rfl hfree)

theorem Approve_codesUnique (env : Env) (rnd : String) (s : Store)
    (approveParam : approveData) (h : s.codesUnique) :
    (Approve env rnd s approveParam).2.codesUnique := by
  have hs := codesUnique_ClearOld env s h
  unfold Approve
  simp only
  split
  · exact hs
  · rename_i request hreq
    simp only [ClientApproval.Create]
    have hs1 : ({ ClearOldGrantRequests env s with
        ClientApprovals := (ClearOldGrantRequests env s).ClientApprovals ++
          [⟨NewStringSet approveParam.Scope, request.ClientUUID, request.AccountUUID.String⟩] }
        : Store).codesUnique := hs
    have hfree := codeFree_of_mem _ request request hs1 (GetGrantRequest_some hreq).1 rfl rfl
    rcases ApproveScopes_cases request _ with hres | hres <;> rw [hres] <;> simp only
    · have h1 := codesUnique_putGrantRequest _
        { request with ScopeApproved := request.ScopeRequested } hs1 hfree
      simp only [Bool.not_true, Bool.false_eq_true, if_false]
      split
      · exact finishCodeRequest_codesUnique env rnd _ _ h1
      · exact finishImplicitRequest_codesUnique env rnd _ _ h1
    · simp only [Bool.not_false, if_true]
      exact hs1

theorem Call_run_codesUnique (c : Call) (s : Store) (h : s.codesUnique) :
    (c.run s).2.codesUnique := by
  cases c with
  | authorize env draws param =>
    rcases Authorize_cases env draws s param with he | ⟨req, hcode, -, he⟩
    · simp only [Call.run, he]; exact h
    · simp only [Call.run, he]
      intro a ha b hb hva hvb hab
      rcases List.mem_append.1 ha with ha | ha
      · rcases List.mem_append.1 hb with hb | hb
        · exact h a ha b hb hva hvb hab
        · rw [List.mem_singleton.1 hb, hcode] at hvb
          cases hvb
      · rw [List.mem_singleton.1 ha, hcode] at hva
        cases hva
  | login env rnd form => exact Login_codesUnique env rnd s form h
  | approve env rnd approveParam => exact Approve_codesUnique env rnd s approveParam h
  | token env draws auth form =>
    exact fun a ha b hb =>
      codesUnique_ClearOld env s h a ((Token_sublist env draws s auth form).subset ha)
        b ((Token_sublist env draws s auth form).subset hb)

theorem runCalls_codesUnique (calls : List Call) (s : Store) (h : s.codesUnique) :
    (runCalls calls s).codesUnique := by
  induction calls generalizing s with
  | nil => exact h
  | cons c cs ih => exact ih (c.run s).2 (Call_run_codesUnique c s h)

/-! ## the sweep at the start of the handlers -/

/-- The handlers `Login`, `Approve` and `Token` run the expiry sweep before any other
read or write of the store: the outcome of each is its outcome on the swept store, the
store each leaves holds no request that the sweep removes, and `Login` and `Approve`
answer `Grant request does not exist` when every request under the given token is one
the sweep removes.  `Authorize` acts on no stored grant request: it leaves the store as
it is or adds one new request, without code and account, at the end. -/
theorem handlers_sweep_first (env : Env) (rnd : String) (draws : List String) (s : Store)
    (form : Except String loginData) (approveParam : approveData)
    (auth : Option (String × String)) (tokenForm : Except String requestTokenData)
    (param : Except String authorizeData) :
    (Login env rnd s form = Login env rnd (ClearOldGrantRequests env s) form
      ∧ ClearOldGrantRequests env (Login env rnd s form).2 = (Login env rnd s form).2)
    ∧ (Approve env rnd s approveParam = Approve env rnd (ClearOldGrantRequests env s) approveParam
      ∧ ClearOldGrantRequests env (Approve env rnd s approveParam).2
          = (Approve env rnd s approveParam).2)
    ∧ (Token env draws s auth tokenForm
          = Token env draws (ClearOldGrantRequests env s) auth tokenForm
      ∧ ClearOldGrantRequests env (Token env draws s auth tokenForm).2
          = (Token env draws s auth tokenForm).2)
    ∧ (∀ login password requestID,
        (∀ r ∈ s.GrantRequests, r.Token = requestID → r.stale env = true) →
        Login env rnd s (.ok ⟨login, password, requestID⟩)
          = (.errorHTML "Grant request does not exist" 404, ClearOldGrantRequests env s))
    ∧ (∀ client requestID scope,
        (∀ r ∈ s.GrantRequests, r.Token = requestID → r.stale env = true) →
        Approve env rnd s ⟨client, requestID, scope⟩
          = (.errorHTML "Grant request does not exist" 404, ClearOldGrantRequests env s))
    ∧ ((Authorize env draws s param).2 = s
      ∨ ∃ req : GrantRequest, req.Code = NullString.null ∧ req.AccountUUID = NullString.null
          ∧ (Authorize env draws s param).2
            = { s with GrantRequests := s.GrantRequests ++ [req] }) := by
  have hnone : ∀ requestID, (∀ r ∈ s.GrantRequests, r.Token = requestID → r.stale env = true) →
      GetGrantRequest (ClearOldGrantRequests env s) requestID = none := by
    intro requestID h
    simp only [GetGrantRequest, List.find?_eq_none]
    intro r hr
    rw [ClearOldGrantRequests, List.mem_filter] at hr
    intro ht
    have := h r hr.1 (by simpa using ht)
    simp [this] at hr
  refine ⟨⟨?_, ?_⟩, ⟨?_, ?_⟩, ⟨?_, ?_⟩, ?_, ?_, Authorize_cases env draws s param⟩
  · simp only [Login, ClearOldGrantRequests_idem]
  · exact ClearOldGrantRequests_eq_self env _
      (Login_forall (fun r => r.stale env = false) env rnd (fun _ _ hq => hq) (fun _ _ hq => hq)
        (fun _ _ => by simp [GrantRequest.stale]) s form (ClearOldGrantRequests_swept env s))
  · simp only [Approve, ClearOldGrantRequests_idem]
  · exact ClearOldGrantRequests_eq_self env _
      (Approve_forall (fun r => r.stale env = false) env rnd (fun _ _ hq => hq)
        (fun _ _ => by simp [GrantRequest.stale]) s approveParam
        (ClearOldGrantRequests_swept env s))
  · simp only [Token, ClearOldGrantRequests_idem]
  · exact ClearOldGrantRequests_eq_self env _ (fun r hr =>
      ClearOldGrantRequests_swept env s r ((Token_sublist env draws s auth tokenForm).subset hr))
  · intro login password requestID h
    simp [Login, hnone requestID h]
  · intro client requestID scope h
    simp [Approve, hnone requestID h]

/-! ## what `Login` leaves behind after a valid login -/

theorem finishCodeRequest_ok_of (env : Env) (rnd : String) (s : Store) (request : GrantRequest)
    (h : ∀ r ∈ s.GrantRequests, r.Token ≠ request.Token → r.Code.Valid = true →
      r.Code.String ≠ rnd) :
    ∃ url, finishCodeRequest env rnd s request = (.redirect url 302 "no-store",
      s.putGrantRequest { request with Code := { String := rnd, Valid := true } }) := by
  have hok := Update_ok_of { request with Code := { String := rnd, Valid := true } } s
    (fun _ => h)
  exact ⟨_, by simp only [finishCodeRequest, hok]; rfl⟩

theorem finishImplicitRequest_ok_of (env : Env) (rnd : String) (s : Store)
    (request : GrantRequest) (h : ∀ t ∈ s.AccessTokens, t.Token ≠ rnd) :
    ∃ url, finishImplicitRequest env rnd s request = (.redirect url 302 "no-store",
      { s with
        GrantRequests := s.GrantRequests.filter (fun r => r.Token != request.Token),
        AccessTokens := s.AccessTokens ++
          [⟨rnd, request.ScopeApproved, request.ClientUUID, request.AccountUUID.String,
            env.now + env.TokenLifeTime⟩] }) := by
  have hany : (s.AccessTokens.any (fun x => x.Token == rnd)) = false := by
    rw [List.any_eq_false]
    intro x hx
    simpa using h x hx
  exact ⟨_, by simp only [finishImplicitRequest, GrantRequest.Delete, AccessToken.Create, hany]; rfl⟩

theorem find?_filter_token_none (l : List GrantRequest) (token : String) :
    (l.filter (fun r => r.Token != token)).find? (fun r => r.Token == token) = none := by
  rw [List.find?_eq_none]
  intro r hr
  have := (List.mem_filter.1 hr).2
  simpa using this

theorem resolve_and_finish_account (env : Env) (rnd : String) (s : Store)
    (req : GrantRequest) (requestID : String) (toks : List AccessToken)
    (other : GrantRequest → Store → Response × Store)
    (hother : ∀ r t, (other r t).2 = t)
    (hother1 : ∀ r t, ∃ url, (other r t).1 = .redirect url 302 "no-store")
    (hget : GetGrantRequest s requestID = some req) (htoks : s.AccessTokens = toks) :
    ((∃ stored, GetGrantRequest (match req.ApproveScopes s with
          | (approved, request, s) =>
            if approved then
              if request.GrantType == "code" then finishCodeRequest env rnd s request
              else finishImplicitRequest env rnd s request
            else other request s).2 requestID = some stored
          ∧ stored.AccountUUID = req.AccountUUID)
      ∨ (GetGrantRequest (match req.ApproveScopes s with
          | (approved, request, s) =>
            if approved then
              if request.GrantType == "code" then finishCodeRequest env rnd s request
              else finishImplicitRequest env rnd s request
            else other request s).2 requestID = none
        ∧ req.GrantType ≠ "code"
        ∧ ((∃ tok url, (match req.ApproveScopes s with
              | (approved, request, s) =>
                if approved then
                  if request.GrantType == "code" then finishCodeRequest env rnd s request
                  else finishImplicitRequest env rnd s request
                else other request s)
              = (.redirect url 302 "no-store",
                  { s with
                    GrantRequests := s.GrantRequests.filter (fun r => r.Token != requestID),
                    AccessTokens := toks ++ [tok] })
              ∧ tok.Token = rnd ∧ tok.AccountUUID = req.AccountUUID.String
              ∧ tok.ClientUUID = req.ClientUUID ∧ tok.Scope = req.ScopeRequested)
          ∨ (∃ err, (match req.ApproveScopes s with
              | (approved, request, s) =>
                if approved then
                  if request.GrantType == "code" then finishCodeRequest env rnd s request
                  else finishImplicitRequest env rnd s request
                else other request s)
              = (.panic err,
                  { s with
                    GrantRequests := s.GrantRequests.filter (fun r => r.Token != requestID) })
              ∧ ∃ t ∈ toks, t.Token = rnd))))
    ∧ ((∀ r ∈ s.GrantRequests, r.Token ≠ requestID → r.Code.Valid = true →
          r.Code.String ≠ rnd) →
        (∀ t ∈ toks, t.Token ≠ rnd) →
        ∃ url, (match req.ApproveScopes s with
          | (approved, request, s) =>
            if approved then
              if request.GrantType == "code" then finishCodeRequest env rnd s request
              else finishImplicitRequest env rnd s request
            else other request s).1 = .redirect url 302 "no-store") := by
  obtain ⟨hmem, htok⟩ := GetGrantRequest_some hget
  subst htoks
  subst htok
  rcases ApproveScopes_cases req s with hres | hres <;> rw [hres] <;> simp only
  · -- approved
    have hget2 : GetGrantRequest
        (s.putGrantRequest { req with ScopeApproved := req.ScopeRequested }) req.Token
          = some { req with ScopeApproved := req.ScopeRequested } :=
      GetGrantRequest_put_same s { req with ScopeApproved := req.ScopeRequested }
        ⟨req, hmem, rfl⟩
    have hmem2 := (GetGrantRequest_some hget2).1
    have hfilter : (s.putGrantRequest { req with ScopeApproved := req.ScopeRequested }).GrantRequests.filter
        (fun r => r.Token != req.Token) = s.GrantRequests.filter (fun r => r.Token != req.Token) := by
      simp only [Store.putGrantRequest, List.filter_map]
      rw [← List.map_id (s.GrantRequests.filter (fun r => r.Token != req.Token))]
      have hp : ∀ r ∈ s.GrantRequests,
          ((fun r : GrantRequest => r.Token != req.Token) ∘
            (fun r => if (r.Token == req.Token) = true then
              { req with ScopeApproved := req.ScopeRequested } else r)) r
          = (fun r : GrantRequest => r.Token != req.Token) r := by
        intro r _
        by_cases h : r.Token = req.Token <;> simp [h]
      rw [List.filter_congr hp]
      apply List.map_congr_left
      intro r hr
      have := (List.mem_filter.1 hr).2
      have hne : ¬ r.Token = req.Token := by simpa using this
      simp [hne]
    simp only [if_true]
    split
    · -- code grant
      refine ⟨Or.inl ?_, ?_⟩
      · rcases finishCodeRequest_cases env rnd
          (s.putGrantRequest { req with ScopeApproved := req.ScopeRequested })
          { req with ScopeApproved := req.ScopeRequested } with ⟨err, he, -⟩ | ⟨⟨url, he⟩, -⟩
        · rw [he]
          exact ⟨_, hget2, rfl⟩
        · rw [he]
          exact ⟨_, GetGrantRequest_put_same _
            { req with ScopeApproved := req.ScopeRequested,
                       Code := { String := rnd, Valid := true } }
            ⟨_, hmem2, rfl⟩, rfl⟩
      · intro hcodes _
        obtain ⟨url, he⟩ := finishCodeRequest_ok_of env rnd
          (s.putGrantRequest { req with ScopeApproved := req.ScopeRequested })
          { req with ScopeApproved := req.ScopeRequested }
          (fun r hr hne => by
            rcases mem_putGrantRequest hr with e | ⟨hr1, -⟩
            · exact absurd (by rw [e]) hne
            · exact hcodes r hr1 hne)
        exact ⟨url, by rw [he]⟩
    · -- implicit grant
      rename_i hgt
      have hgt1 : req.GrantType ≠ "code" := by simpa using hgt
      refine ⟨Or.inr ⟨?_, hgt1, ?_⟩, ?_⟩
      · rcases finishImplicitRequest_cases env rnd
          (s.putGrantRequest { req with ScopeApproved := req.ScopeRequested })
          { req with ScopeApproved := req.ScopeRequested } with ⟨err, he, -⟩ | ⟨url, he⟩ <;>
          rw [he] <;> exact find?_filter_token_none _ _
      · by_cases hany : ∃ t ∈ s.AccessTokens, t.Token = rnd
        · right
          have h1 : ((s.putGrantRequest { req with ScopeApproved := req.ScopeRequested }).AccessTokens.any
              (fun x => x.Token == rnd)) = true := by
            rw [List.any_eq_true]
            obtain ⟨t, ht, hte⟩ := hany
            exact ⟨t, ht, by simpa using hte⟩
          refine ⟨"duplicate key value violates unique constraint", ?_, hany⟩
          simp only [finishImplicitRequest, GrantRequest.Delete, AccessToken.Create, h1, if_true]
          rw [hfilter]
          rfl
        · left
          have hno : ∀ t ∈ (s.putGrantRequest
              { req with ScopeApproved := req.ScopeRequested }).AccessTokens, t.Token ≠ rnd :=
            fun t ht hte => hany ⟨t, ht, hte⟩
          obtain ⟨url, he⟩ := finishImplicitRequest_ok_of env rnd _
            { req with ScopeApproved := req.ScopeRequested } hno
          refine ⟨⟨rnd, req.ScopeRequested, req.ClientUUID, req.AccountUUID.String,
            env.now + env.TokenLifeTime⟩, url, ?_, rfl, rfl, rfl, rfl⟩
          rw [he, hfilter]
          rfl
      · intro _ htoks
        obtain ⟨url, he⟩ := finishImplicitRequest_ok_of env rnd
          (s.putGrantRequest { req with ScopeApproved := req.ScopeRequested })
          { req with ScopeApproved := req.ScopeRequested } htoks
        exact ⟨url, by rw [he]⟩
  · -- not approved
    simp only [Bool.false_eq_true, if_false, hother]
    exact ⟨Or.inl ⟨req, hget, rfl⟩, fun _ _ => hother1 req s⟩

/-! ## the claims -/

/-- C8. Authentication failures do not leak the wrong factor.  `Token` answers an unknown
client name and a known client name with a wrong secret with the same response,
`Wrong client id or client secret` with status 401; `Login` answers an unknown login
name and a known login with a wrong password with the same response, the redirect to
the login page with status 401 when the grant request exists.  In each case the store
is left as the expiry sweep leaves it: no token or approval is created and the grant
requests that remain are unmodified. -/
theorem auth_failure_does_not_leak (env : Env) (draws : List String) (rnd : String) (s : Store)
    (unknownName knownName secret1 secret2 : String) (client : Client)
    (form1 form2 : Except String requestTokenData)
    (unknownLogin knownLogin pw1 pw2 requestID : String) (account : Account)
    (hU : GetClientByName s unknownName = none)
    (hK : GetClientByName s knownName = some client) (hS : secret2 ≠ client.Secret)
    (hUL : GetAccountByLogin s unknownLogin = none)
    (hKL : GetAccountByLogin s knownLogin = some account)
    (hP : account.VerifyPassword pw2 = false) :
    (Token env draws s (some (unknownName, secret1)) form1
        = (.errorJSON "Wrong client id or client secret" 401, ClearOldGrantRequests env s)
      ∧ Token env draws s (some (knownName, secret2)) form2
        = (.errorJSON "Wrong client id or client secret" 401, ClearOldGrantRequests env s))
    ∧ (Login env rnd s (.ok ⟨unknownLogin, pw1, requestID⟩)
        = Login env rnd s (.ok ⟨knownLogin, pw2, requestID⟩)
      ∧ (Login env rnd s (.ok ⟨knownLogin, pw2, requestID⟩)).2 = ClearOldGrantRequests env s
      ∧ ∀ request, GetGrantRequest (ClearOldGrantRequests env s) requestID = some request →
          (Login env rnd s (.ok ⟨knownLogin, pw2, requestID⟩)).1
            = .redirect ("/oauth/login_page?request_id=" ++ request.Token) 401 "no-store")
    ∧ ((ClearOldGrantRequests env s).AccessTokens = s.AccessTokens
      ∧ (ClearOldGrantRequests env s).RefreshTokens = s.RefreshTokens
      ∧ (ClearOldGrantRequests env s).ClientApprovals = s.ClientApprovals
      ∧ (ClearOldGrantRequests env s).GrantRequests.Sublist s.GrantRequests) := by
  refine ⟨⟨?_, ?_⟩, ⟨?_, ?_, ?_⟩, rfl, rfl, rfl, ClearOldGrantRequests_sublist env s⟩
  · simp [Token, hU]
  · simp [Token, hK, hS]
  · simp only [Login, GetAccountByLogin_ClearOld, hUL, hKL, hP]
    cases GetGrantRequest (ClearOldGrantRequests env s) requestID <;> simp
  · simp only [Login, GetAccountByLogin_ClearOld, hKL, hP]
    cases GetGrantRequest (ClearOldGrantRequests env s) requestID <;> simp
  · intro request hreq
    simp [Login, hKL, hP, hreq]

/-- C10. The outcome of `Token` does not depend on which client authenticated, nor on the
redirect URI submitted: two registered clients, each presenting its own name and
secret, get the same response and leave the same store, and so do two calls that
differ only in the redirect URI of the form. -/
theorem token_ignores_authenticated_client (env : Env) (draws : List String) (s : Store)
    (nameA nameB : String) (clientA clientB : Client) (form : Except String requestTokenData)
    (uri1 uri2 code grantType : String)
    (hA : GetClientByName s nameA = some clientA) (hB : GetClientByName s nameB = some clientB) :
    Token env draws s (some (nameA, clientA.Secret)) form
        = Token env draws s (some (nameB, clientB.Secret)) form
    ∧ Token env draws s (some (nameA, clientA.Secret)) (.ok ⟨uri1, code, grantType⟩)
        = Token env draws s (some (nameA, clientA.Secret)) (.ok ⟨uri2, code, grantType⟩) := by
  constructor
  · simp [Token, hA, hB]
  · simp [Token, hA]

/-- C6. Finalizing an implicit grant.  When the random token `rnd` is not yet the key of
an access token, `finishImplicitRequest` answers with the redirect that carries the
token string of the access token it created; the grant request is no longer found by
its token, exactly one access token is added, bound to the client UUID, account UUID
and approved scope of the request, and no refresh token is created. -/
theorem finishImplicitRequest_issues_one_access_token (env : Env) (rnd : String) (s : Store)
    (request : GrantRequest) (hfresh : ∀ t ∈ s.AccessTokens, t.Token ≠ rnd) :
    ∃ (tok : AccessToken) (s1 : Store),
      finishImplicitRequest env rnd s request =
        (.redirect (request.RedirectURI ++ "?token_type=bearer&scope=" ++
            env.QueryEscape (stringsJoin request.ScopeApproved.Strings ",") ++ "&state=" ++
            env.QueryEscape request.State ++ "&access_token=" ++ tok.Token) 302 "no-store", s1)
      ∧ GetGrantRequest s1 request.Token = none
      ∧ s1.AccessTokens = s.AccessTokens ++ [tok]
      ∧ tok.Token = rnd
      ∧ tok.ClientUUID = request.ClientUUID
      ∧ tok.AccountUUID = request.AccountUUID.String
      ∧ tok.Scope = request.ScopeApproved
      ∧ s1.RefreshTokens = s.RefreshTokens := by
  have hany : (s.AccessTokens.any (fun x => x.Token == rnd)) = false := by
    rw [List.any_eq_false]
    intro x hx
    simpa using hfresh x hx
  refine ⟨⟨rnd, request.ScopeApproved, request.ClientUUID, request.AccountUUID.String,
      env.now + env.TokenLifeTime⟩,
    ⟨s.Clients, s.Accounts, s.GrantRequests.filter (fun r => r.Token != request.Token),
      s.ClientApprovals,
      s.AccessTokens ++ [⟨rnd, request.ScopeApproved, request.ClientUUID,
        request.AccountUUID.String, env.now + env.TokenLifeTime⟩],
      s.RefreshTokens⟩,
    ?_, ?_, rfl, rfl, rfl, rfl, rfl, rfl⟩
  · simp only [finishImplicitRequest, GrantRequest.Delete, AccessToken.Create, hany]
    rfl
  · simp [GetGrantRequest, List.find?_eq_none]

/-- C7 (as stated, refuted).  The random generator returns `R1`, the token of the request
itself.  `finishCodeRequest` stores it: the code of the record equals its token, and
the handler answers with the redirect carrying that code. -/
theorem finishCodeRequest_code_equals_token :
    (finishCodeRequest env0 "R1" store1 requestR1).1
      = .redirect "https://gin/cb?scope=&state=st&code=R1" 302 "no-store"
    ∧ (GetGrantRequest (finishCodeRequest env0 "R1" store1 requestR1).2 "R1").map
        (fun r => (r.Code, r.Token)) = some (⟨true, "R1"⟩, "R1") := by
  decide

/-- C7 (amended). Finalizing a code grant.  For a request persisted in the store and a
random token `rnd` that is not the code of another request, `finishCodeRequest` stores
`rnd` as the valid code of the record, which stays persisted under its token; the code
is the draw itself, so it differs from the token of the request exactly when the draw
does; no access or refresh token is created, and the redirect carries exactly the
stored code. -/
theorem finishCodeRequest_stores_code (env : Env) (rnd : String) (s : Store)
    (request : GrantRequest)
    (hex : ∃ r ∈ s.GrantRequests, r.Token = request.Token)
    (hfresh : ∀ r ∈ s.GrantRequests, r.Token ≠ request.Token → r.Code.Valid = true →
      r.Code.String ≠ rnd) :
    ∃ (stored : GrantRequest) (s1 : Store),
      finishCodeRequest env rnd s request =
        (.redirect (request.RedirectURI ++ "?scope=" ++
            env.QueryEscape (stringsJoin request.ScopeApproved.Strings ",") ++ "&state=" ++
            env.QueryEscape request.State ++ "&code=" ++ stored.Code.String) 302 "no-store", s1)
      ∧ GetGrantRequest s1 request.Token = some stored
      ∧ stored = { request with Code := { String := rnd, Valid := true } }
      ∧ stored.Code.Valid = true
      ∧ stored.Code.String = rnd
      ∧ (stored.Code.String ≠ request.Token ↔ rnd ≠ request.Token)
      ∧ s1.AccessTokens = s.AccessTokens
      ∧ s1.RefreshTokens = s.RefreshTokens := by
  have h2 : (s.GrantRequests.any (fun r => r.Token != request.Token && r.Code.Valid
      && r.Code.String == rnd)) = false := by
    rw [List.any_eq_false]
    intro r hr
    have := hfresh r hr
    simp only [Bool.and_eq_true, bne_iff_ne, ne_eq, beq_iff_eq, not_and]
    intro a
    exact this a.1 a.2
  refine ⟨{ request with Code := { String := rnd, Valid := true } },
    s.putGrantRequest { request with Code := { String := rnd, Valid := true } },
    ?_, ?_, rfl, rfl, rfl, Iff.rfl, rfl, rfl⟩
  · simp [finishCodeRequest, GrantRequest.Update, h2]
  · exact GetGrantRequest_put_same s { request with Code := { String := rnd, Valid := true } } hex

/-- C9. Creating a refresh token and looking it up is a round trip: after a successful
`Create`, `GetRefreshToken` with the token string finds a token with the same account
UUID whose scope contains every scope identifier of the created one; the lookup of any
other string is unchanged by the creation, and a string that is the key of no refresh
token is not found. -/
theorem refresh_token_roundtrip (s s1 : Store) (fresh : RefreshToken)
    (hcreate : fresh.Create s = .ok s1) :
    (∃ check, GetRefreshToken s1 fresh.Token = some check
        ∧ check.AccountUUID = fresh.AccountUUID
        ∧ ∀ x, fresh.Scope.Contains x = true → check.Scope.Contains x = true)
    ∧ (∀ token, token ≠ fresh.Token → GetRefreshToken s1 token = GetRefreshToken s token)
    ∧ (∀ token, (∀ t ∈ s1.RefreshTokens, t.Token ≠ token) → GetRefreshToken s1 token = none) := by
  unfold RefreshToken.Create at hcreate
  split at hcreate
  · cases hcreate
  · rename_i hno
    simp only [Except.ok.injEq] at hcreate
    subst hcreate
    have hno1 : ∀ x ∈ s.RefreshTokens, ¬ x.Token = fresh.Token := by simpa using hno
    refine ⟨⟨fresh, ?_, rfl, fun x hx => hx⟩, ?_, ?_⟩
    · simp only [GetRefreshToken, List.find?_append]
      have : s.RefreshTokens.find? (fun t => t.Token == fresh.Token) = none := by
        rw [List.find?_eq_none]
        intro x hx
        simpa using hno1 x hx
      simp [this]
    · intro token htok
      have hne : ¬ fresh.Token = token := fun e => htok e.symm
      simp [GetRefreshToken, List.find?_append, hne]
    · intro token h
      simp only [GetRefreshToken]
      rw [List.find?_eq_none]
      intro x hx
      simpa using h x hx

/-- C5 (amended). After `Approve` has recorded the consented scope, the resolver approves,
and the panic `Unable to approve requested scope` is not reached, exactly when every
requested scope identifier is in the consented scope or in an earlier approval of the
client and account of the request; otherwise `Approve` panics with that message. -/
theorem Approve_panics_iff_scope_not_covered (env : Env) (rnd : String) (s : Store)
    (approveParam : approveData) (request : GrantRequest)
    (hreq : GetGrantRequest (ClearOldGrantRequests env s) approveParam.RequestID = some request) :
    (Approve env rnd s approveParam).1 = .panic "Unable to approve requested scope" ↔
      ¬ ∀ x ∈ request.ScopeRequested,
          x ∈ approveParam.Scope ∨
            x ∈ approvedUnion s request.ClientUUID request.AccountUUID.String := by
  have hcov : (∀ x ∈ request.ScopeRequested,
      x ∈ approvedUnion { ClearOldGrantRequests env s with
        ClientApprovals := (ClearOldGrantRequests env s).ClientApprovals ++
          [⟨NewStringSet approveParam.Scope, request.ClientUUID, request.AccountUUID.String⟩] }
        request.ClientUUID request.AccountUUID.String) ↔
      ∀ x ∈ request.ScopeRequested, x ∈ approveParam.Scope ∨
        x ∈ approvedUnion s request.ClientUUID request.AccountUUID.String := by
    refine forall₂_congr (fun x _ => ?_)
    rw [mem_approvedUnion_Create]
    have : approvedUnion (ClearOldGrantRequests env s) request.ClientUUID
        request.AccountUUID.String = approvedUnion s request.ClientUUID
        request.AccountUUID.String := rfl
    simp [this, NewStringSet, or_comm]
  rw [← hcov, ← ApproveScopes_fst]
  simp only [Approve, hreq, ClientApproval.Create]
  generalize hs1 : ({ ClearOldGrantRequests env s with
        ClientApprovals := (ClearOldGrantRequests env s).ClientApprovals ++
          [⟨NewStringSet approveParam.Scope, request.ClientUUID, request.AccountUUID.String⟩] }
        : Store) = s1
  rcases hres : request.ApproveScopes s1 with ⟨approved, request1, s2⟩
  cases approved
  · simp
  · simp only [Bool.not_true, Bool.false_eq_true, if_false, not_true_eq_false, iff_false]
    split
    · rcases finishCodeRequest_cases env rnd s2 request1 with ⟨err, he, hne⟩ | ⟨⟨url, he⟩, -⟩
      · rw [he]; simpa using hne
      · rw [he]; simp
    · rcases finishImplicitRequest_cases env rnd s2 request1 with ⟨err, he, hne⟩ | ⟨url, he⟩
      · rw [he]; simpa using hne
      · rw [he]; simp

/-- C1 (as stated, refuted).  From the store without grant requests the code `K1` is
issued to `alice` and exchanged by client `gin` for `A1` and `F1`.  Then `bob` runs a
second flow in which `Approve` draws `K1` again as its random token, and client `wiki`
exchanges `K1` a second time, for `A2` and `F2`.  Likewise, in a store in which two
requests carry the code `K1`, two `Token` calls in a row both succeed. -/
theorem code_issued_again_is_exchanged_again :
    ((Token env0 ["A1", "F1"]
        (runCalls [.authorize env0 ["R1"] (.ok ⟨"code", "gin", "https://gin/cb", "st", ["read"]⟩),
            .login env0 "K1" (.ok ⟨"alice", "pwA", "R1"⟩),
            .approve env0 "K1" ⟨"gin", "R1", ["read"]⟩] store0)
        (some ("gin", "secret")) (.ok ⟨"", "K1", "authorization_code"⟩)).1
      = .json "no-cache" "application/json" ⟨"A1", "F1", "Bearer"⟩
    ∧ (Token env0 ["A2", "F2"]
        (runCalls [.authorize env0 ["R2"] (.ok ⟨"code", "gin", "https://gin/cb", "st", ["read"]⟩),
            .login env0 "K1" (.ok ⟨"bob", "pwB", "R2"⟩),
            .approve env0 "K1" ⟨"gin", "R2", ["read"]⟩]
          (Token env0 ["A1", "F1"]
            (runCalls [.authorize env0 ["R1"]
                (.ok ⟨"code", "gin", "https://gin/cb", "st", ["read"]⟩),
              .login env0 "K1" (.ok ⟨"alice", "pwA", "R1"⟩),
              .approve env0 "K1" ⟨"gin", "R1", ["read"]⟩] store0)
            (some ("gin", "secret")) (.ok ⟨"", "K1", "authorization_code"⟩)).2)
        (some ("wiki", "geheim")) (.ok ⟨"", "K1", "authorization_code"⟩)).1
      = .json "no-cache" "application/json" ⟨"A2", "F2", "Bearer"⟩)
    ∧ ((Token env0 ["A1", "F1"] storeDup (some ("gin", "secret"))
          (.ok ⟨"", "K1", "authorization_code"⟩)).1
        = .json "no-cache" "application/json" ⟨"A1", "F1", "Bearer"⟩
      ∧ (Token env0 ["A2", "F2"]
          (Token env0 ["A1", "F1"] storeDup (some ("gin", "secret"))
            (.ok ⟨"", "K1", "authorization_code"⟩)).2
          (some ("wiki", "geheim")) (.ok ⟨"", "K1", "authorization_code"⟩)).1
        = .json "no-cache" "application/json" ⟨"A2", "F2", "Bearer"⟩) := by
  decide

/-- C1 (amended). A code is exchanged at most once per issuance.  Start from a store whose
codes are unique (the key constraint of the persistence layer; the store without grant
requests is one) and run any sequence of calls of the entry points.  If then a `Token`
call with `code` succeeds, leaving the store `s1`, then after any further sequence of
calls in which no `Login` or `Approve` draws `code` again as its random token, a
`Token` call with the same code by any client that presents its own name and secret
answers `Invalid grant code` with status 401, and it changes nothing but what the
expiry sweep removes: no access or refresh token is created. -/
theorem code_exchanged_at_most_once (s0 : Store) (hkeys : s0.codesUnique) (before : List Call)
    (env : Env) (draws : List String) (s1 : Store)
    (auth : Option (String × String)) (uri code grantType cc ct : String)
    (body : responseTokenData)
    (hfirst : Token env draws (runCalls before s0) auth (.ok ⟨uri, code, grantType⟩)
      = (.json cc ct body, s1))
    (later : List Call) (hlater : ∀ c ∈ later, c.randomToken ≠ some code)
    (env2 : Env) (draws2 : List String) (name2 uri2 : String) (client2 : Client)
    (hclient : GetClientByName (runCalls later s1) name2 = some client2) :
    Token env2 draws2 (runCalls later s1) (some (name2, client2.Secret))
        (.ok ⟨uri2, code, "authorization_code"⟩)
      = (.errorJSON "Invalid grant code" 401, ClearOldGrantRequests env2 (runCalls later s1))
    ∧ (ClearOldGrantRequests env2 (runCalls later s1)).AccessTokens
        = (runCalls later s1).AccessTokens
    ∧ (ClearOldGrantRequests env2 (runCalls later s1)).RefreshTokens
        = (runCalls later s1).RefreshTokens := by
  have hkeys1 := runCalls_codesUnique before s0 hkeys
  obtain ⟨request, hreq, hs1⟩ :=
    Token_success env draws _ s1 auth uri code grantType cc ct body hfirst
  have hmem : request ∈ (ClearOldGrantRequests env (runCalls before s0)).GrantRequests :=
    List.mem_of_find?_eq_some hreq
  have hcode : request.Code.Valid = true ∧ request.Code.String = code := by
    simpa using List.find?_some hreq
  have hunused : s1.codeUnused code := by
    intro r hr hv hc
    rw [hs1, List.mem_filter] at hr
    have hne : r.Token ≠ request.Token := by simpa using hr.2
    exact hne (hkeys1 r (List.mem_filter.1 hr.1).1 request (List.mem_filter.1 hmem).1 hv hcode.1
      (hc.trans hcode.2.symm))
  exact ⟨Token_of_codeUnused env2 draws2 _ name2 uri2 code client2 hclient
    (runCalls_codeUnused later s1 code hlater hunused), rfl, rfl⟩

/-- C1 (amended), at a concrete input.  From the store without grant requests: client `gin`
asks for a code grant, `alice` logs in and approves, which issues the code `K1`; `gin`
exchanges `K1` for the tokens `A1` and `F1`.  Then `bob` runs a second flow that issues
the code `K2`, and client `wiki` presents `K1` again. -/
theorem code_exchanged_at_most_once_witness :
    (Token env0 ["A1", "F1"]
        (runCalls [.authorize env0 ["R1"] (.ok ⟨"code", "gin", "https://gin/cb", "st", ["read"]⟩),
            .login env0 "K1" (.ok ⟨"alice", "pwA", "R1"⟩),
            .approve env0 "K1" ⟨"gin", "R1", ["read"]⟩] store0)
        (some ("gin", "secret")) (.ok ⟨"", "K1", "authorization_code"⟩)).1
      = .json "no-cache" "application/json" ⟨"A1", "F1", "Bearer"⟩
    ∧ (Token env0 ["A2", "F2"]
        (runCalls [.authorize env0 ["R2"] (.ok ⟨"code", "gin", "https://gin/cb", "st", ["read"]⟩),
            .login env0 "K2" (.ok ⟨"bob", "pwB", "R2"⟩),
            .approve env0 "K2" ⟨"gin", "R2", ["read"]⟩]
          (Token env0 ["A1", "F1"]
            (runCalls [.authorize env0 ["R1"]
                (.ok ⟨"code", "gin", "https://gin/cb", "st", ["read"]⟩),
              .login env0 "K1" (.ok ⟨"alice", "pwA", "R1"⟩),
              .approve env0 "K1" ⟨"gin", "R1", ["read"]⟩] store0)
            (some ("gin", "secret")) (.ok ⟨"", "K1", "authorization_code"⟩)).2)
        (some ("wiki", clientWiki.Secret)) (.ok ⟨"", "K1", "authorization_code"⟩)).1
      = .errorJSON "Invalid grant code" 401 :=
  ⟨by decide,
    congrArg Prod.fst (code_exchanged_at_most_once store0 (by decide)
      [.authorize env0 ["R1"] (.ok ⟨"code", "gin", "https://gin/cb", "st", ["read"]⟩),
        .login env0 "K1" (.ok ⟨"alice", "pwA", "R1"⟩),
        .approve env0 "K1" ⟨"gin", "R1", ["read"]⟩]
      env0 ["A1", "F1"] _ (some ("gin", "secret")) "" "K1" "authorization_code" "no-cache"
      "application/json" ⟨"A1", "F1", "Bearer"⟩ (by decide)
      [.authorize env0 ["R2"] (.ok ⟨"code", "gin", "https://gin/cb", "st", ["read"]⟩),
        .login env0 "K2" (.ok ⟨"bob", "pwB", "R2"⟩),
        .approve env0 "K2" ⟨"gin", "R2", ["read"]⟩]
      (by decide) env0 ["A2", "F2"] "wiki" "" clientWiki (by decide)).1⟩

/-- C2 (the code at the failing input). `Authorize` does not run the expiry sweep, which
`Login`, `Approve` and `Token` run first (`handlers_sweep_first`): called at time 100 on
a store holding the unfinished request `R0`, expired at time 60, it leaves `R0` in the
store, and its outcome differs from the outcome on the swept store. -/
theorem Authorize_does_not_sweep :
    requestOld.stale env0 = true
    ∧ requestOld ∈ (Authorize env0 ["R9"] storeOld
        (.ok ⟨"code", "gin", "https://gin/cb", "st", ["read"]⟩)).2.GrantRequests
    ∧ Authorize env0 ["R9"] storeOld (.ok ⟨"code", "gin", "https://gin/cb", "st", ["read"]⟩)
      ≠ Authorize env0 ["R9"] (ClearOldGrantRequests env0 storeOld)
          (.ok ⟨"code", "gin", "https://gin/cb", "st", ["read"]⟩) := by
  decide

/-- C5 (as stated, refuted). The request `R1` asks for `read` and `write`; the user
consents to `read` only and there is no earlier approval.  `Approve` records the
approval and then reaches the panic `Unable to approve requested scope`. -/
theorem Approve_partial_consent_panics :
    Approve env0 "K1" store1 ⟨"gin", "R1", ["read"]⟩
      = (.panic "Unable to approve requested scope",
          { store1 with ClientApprovals := [⟨["read"], "c-gin", "u-alice"⟩] }) := by
  decide

/-- C4 (as stated, refuted). `alice` is attached to the request `R1`; `bob` logs in to
`R1` with his own valid password.  The call is not rejected (status 302, on to the
approval page) and the attached identity is now that of `bob`. -/
theorem Login_replaces_attached_account :
    (GetGrantRequest store1 "R1").map (fun r => r.AccountUUID) = some ⟨true, "u-alice"⟩
    ∧ (Login env0 "K1" store1 (.ok ⟨"bob", "pwB", "R1"⟩)).1
        = .redirect "/oauth/approve_page?request_id=R1" 302 "no-store"
    ∧ (GetGrantRequest (Login env0 "K1" store1 (.ok ⟨"bob", "pwB", "R1"⟩)).2 "R1").map
        (fun r => r.AccountUUID) = some ⟨true, "u-bob"⟩ := by
  decide

/-- C4 (amended). `Login` with valid credentials is never rejected because of the identity
already attached to the request: it answers with a 302 redirect, or panics on a
persistence failure of the finish step, and it does not panic when the random token
is neither the code of another request nor the key of an access token.  Afterwards
either the request is still found under its token and carries the identity of the
account that has just logged in (a different account replaces the attached one, the
same account leaves it unchanged), or `Login` has finalized an implicit grant: the
request is deleted and the one access token added is bound to that account, unless the
insert of the token failed on a duplicate key.  No record left under the token carries
another identity. -/
theorem Login_attaches_authenticating_account (env : Env) (rnd : String) (s : Store)
    (login password requestID : String) (request : GrantRequest) (account : Account)
    (hkeys : s.codesUnique)
    (hreq : GetGrantRequest (ClearOldGrantRequests env s) requestID = some request)
    (hacct : GetAccountByLogin s login = some account)
    (hpw : account.VerifyPassword password = true) :
    ((∃ url, (Login env rnd s (.ok ⟨login, password, requestID⟩)).1
          = .redirect url 302 "no-store")
      ∨ ∃ err, (Login env rnd s (.ok ⟨login, password, requestID⟩)).1 = .panic err)
    ∧ (∀ r ∈ (Login env rnd s (.ok ⟨login, password, requestID⟩)).2.GrantRequests,
        r.Token = requestID → r.AccountUUID = ⟨true, account.UUID⟩)
    ∧ ((∃ stored, GetGrantRequest (Login env rnd s (.ok ⟨login, password, requestID⟩)).2
            requestID = some stored
          ∧ stored.AccountUUID = ⟨true, account.UUID⟩)
      ∨ (GetGrantRequest (Login env rnd s (.ok ⟨login, password, requestID⟩)).2 requestID = none
        ∧ request.GrantType ≠ "code"
        ∧ ((∃ tok url,
              (Login env rnd s (.ok ⟨login, password, requestID⟩)).1
                = .redirect url 302 "no-store"
              ∧ (Login env rnd s (.ok ⟨login, password, requestID⟩)).2.AccessTokens
                = s.AccessTokens ++ [tok]
              ∧ tok.Token = rnd ∧ tok.AccountUUID = account.UUID
              ∧ tok.ClientUUID = request.ClientUUID ∧ tok.Scope = request.ScopeRequested)
          ∨ (∃ err, (Login env rnd s (.ok ⟨login, password, requestID⟩)).1 = .panic err
              ∧ (Login env rnd s (.ok ⟨login, password, requestID⟩)).2.AccessTokens
                = s.AccessTokens
              ∧ ∃ t ∈ s.AccessTokens, t.Token = rnd))))
    ∧ ((∀ r ∈ s.GrantRequests, r.Token ≠ requestID → r.Code.Valid = true →
          r.Code.String ≠ rnd) →
        (∀ t ∈ s.AccessTokens, t.Token ≠ rnd) →
        ∃ url, (Login env rnd s (.ok ⟨login, password, requestID⟩)).1
          = .redirect url 302 "no-store") := by
  obtain ⟨hmem, htok⟩ := GetGrantRequest_some hreq
  have hupd := Update_ok_of
    { request with AccountUUID := { String := account.UUID, Valid := true } }
    (ClearOldGrantRequests env s)
    (fun hv r hr hne hrv hc =>
      hne (codesUnique_ClearOld env s hkeys r hr request hmem hrv hv hc))
  have hget1 : GetGrantRequest ((ClearOldGrantRequests env s).putGrantRequest
      { request with AccountUUID := { String := account.UUID, Valid := true } }) requestID
        = some { request with AccountUUID := { String := account.UUID, Valid := true } } := by
    rw [← htok]
    exact GetGrantRequest_put_same (ClearOldGrantRequests env s)
      { request with AccountUUID := { String := account.UUID, Valid := true } }
      ⟨request, hmem, rfl⟩
  have T := resolve_and_finish_account env rnd
    ((ClearOldGrantRequests env s).putGrantRequest
      { request with AccountUUID := { String := account.UUID, Valid := true } })
    { request with AccountUUID := { String := account.UUID, Valid := true } }
    requestID s.AccessTokens
    (fun request s => (.redirect ("/oauth/approve_page?request_id=" ++ request.Token)
      302 "no-store", s)) (fun _ _ => rfl) (fun _ _ => ⟨_, rfl⟩) hget1 rfl
  simp only [Login, hreq, GetAccountByLogin_ClearOld, hacct, hpw, Bool.not_true,
    Bool.false_eq_true, if_false, hupd]
  refine ⟨?_, ?_, ?_, ?_⟩
  · rcases ApproveScopes_cases
      { request with AccountUUID := { String := account.UUID, Valid := true } }
      ((ClearOldGrantRequests env s).putGrantRequest
        { request with AccountUUID := { String := account.UUID, Valid := true } }) with h | h
    · rw [h]
      simp only [if_true]
      split
      · rcases finishCodeRequest_cases env rnd _ _ with ⟨err, he, -⟩ | ⟨⟨url, he⟩, -⟩
        · exact Or.inr ⟨err, by rw [he]⟩
        · exact Or.inl ⟨url, by rw [he]⟩
      · rcases finishImplicitRequest_cases env rnd _ _ with ⟨err, he, -⟩ | ⟨url, he⟩
        · exact Or.inr ⟨err, by rw [he]⟩
        · exact Or.inl ⟨url, by rw [he]⟩
    · rw [h]
      exact Or.inl ⟨_, rfl⟩
  · refine resolve_and_finish_forall
      (fun r => r.Token = requestID → r.AccountUUID = ⟨true, account.UUID⟩) env rnd
      (fun _ _ hq => hq) (fun _ hq => hq) _ _
      (fun request s => (.redirect ("/oauth/approve_page?request_id=" ++ request.Token)
        302 "no-store", s)) (fun _ _ => rfl) ?_ (fun _ => rfl)
    intro r hr ht
    rcases mem_putGrantRequest hr with rfl | ⟨-, hne⟩
    · rfl
    · exact absurd (ht.trans htok.symm) hne
  · rcases T.1 with ⟨stored, hs, ha⟩ | ⟨hnone, hgt, ⟨tok, url, he, h1, h2, h3, h4⟩ | ⟨err, he, hex⟩⟩
    · exact Or.inl ⟨stored, hs, ha⟩
    · exact Or.inr ⟨hnone, hgt, Or.inl ⟨tok, url, congrArg Prod.fst he,
        congrArg (fun o => o.2.AccessTokens) he, h1, h2, h3, h4⟩⟩
    · exact Or.inr ⟨hnone, hgt, Or.inr ⟨err, congrArg Prod.fst he,
        congrArg (fun o => o.2.AccessTokens) he, hex⟩⟩
  · intro hcodes htoks
    refine T.2 (fun r hr hne => ?_) htoks
    rcases mem_putGrantRequest hr with e | ⟨hr1, -⟩
    · exact absurd (by rw [e, htok]) hne
    · exact hcodes r (List.mem_filter.1 hr1).1 hne

/-- C4 (amended), at a concrete input.  `bob` logs in to the request `R1`, to which `alice`
is attached: the request stays stored and carries the identity of `bob`.  `bob` logs in
to the implicit request `R2` for a scope he has approved before: the request is
deleted and the access token `T1` is bound to `bob`. -/
theorem Login_attaches_authenticating_account_witness :
    (GetGrantRequest (ClearOldGrantRequests env0 store1) "R1" = some requestR1
      ∧ requestR1.AccountUUID = ⟨true, "u-alice"⟩
      ∧ ∃ stored, GetGrantRequest (Login env0 "K1" store1 (.ok ⟨"bob", "pwB", "R1"⟩)).2 "R1"
          = some stored ∧ stored.AccountUUID = ⟨true, bob.UUID⟩)
    ∧ (GetGrantRequest (Login env0 "T1" store3 (.ok ⟨"bob", "pwB", "R2"⟩)).2 "R2" = none
      ∧ ∃ tok, (Login env0 "T1" store3 (.ok ⟨"bob", "pwB", "R2"⟩)).2.AccessTokens
          = store3.AccessTokens ++ [tok] ∧ tok.Token = "T1" ∧ tok.AccountUUID = bob.UUID) := by
  have h1 := (Login_attaches_authenticating_account env0 "K1" store1 "bob" "pwB" "R1" requestR1
    bob (by decide) (by decide) (by decide) (by decide)).2.2.1
  have h2 := (Login_attaches_authenticating_account env0 "T1" store3 "bob" "pwB" "R2" requestR2
    bob (by decide) (by decide) (by decide) (by decide)).2.2.1
  refine ⟨⟨by decide, by decide, ?_⟩, ?_⟩
  · rcases h1 with h | ⟨-, hgt, -⟩
    · exact h
    · exact absurd rfl hgt
  · rcases h2 with ⟨stored, hs, -⟩ | ⟨hnone, -, ⟨tok, url, -, ha, ht, hacc, -, -⟩ | ⟨err, he, -, -⟩⟩
    · have hn : GetGrantRequest (Login env0 "T1" store3 (.ok ⟨"bob", "pwB", "R2"⟩)).2 "R2"
          = none := by decide
      rw [hn] at hs
      cases hs
    · exact ⟨hnone, tok, ha, ht, hacc⟩
    · have hr : (Login env0 "T1" store3 (.ok ⟨"bob", "pwB", "R2"⟩)).1
          = .redirect "https://gin/cb?token_type=bearer&scope=read&state=st&access_token=T1"
              302 "no-store" := by decide
      rw [hr] at he
      cases he

/-- C5 (amended), at a concrete input: full consent to the scope of `R1` is approved,
consent to `read` alone is not. -/
theorem Approve_panics_iff_scope_not_covered_witness :
    (Approve env0 "K1" store1 ⟨"gin", "R1", ["read", "write"]⟩).1
        ≠ .panic "Unable to approve requested scope"
    ∧ (Approve env0 "K1" store1 ⟨"gin", "R1", ["read"]⟩).1
        = .panic "Unable to approve requested scope" :=
  ⟨fun h => (Approve_panics_iff_scope_not_covered env0 "K1" store1 ⟨"gin", "R1", ["read", "write"]⟩
      requestR1 (by decide)).1 h (by decide),
    (Approve_panics_iff_scope_not_covered env0 "K1" store1 ⟨"gin", "R1", ["read"]⟩
      requestR1 (by decide)).2 (by decide)⟩

/-- C6, at a concrete input: the implicit request `R2` is finalized with the token `T1`. -/
theorem finishImplicitRequest_issues_one_access_token_witness :
    (∀ t ∈ store1.AccessTokens, t.Token ≠ "T1")
    ∧ GetGrantRequest (finishImplicitRequest env0 "T1" store1 requestR2).2 "R2" = none
    ∧ (finishImplicitRequest env0 "T1" store1 requestR2).2.RefreshTokens = [] := by
  obtain ⟨tok, s1, h, hg, -, -, -, -, -, hr⟩ :=
    finishImplicitRequest_issues_one_access_token env0 "T1" store1 requestR2 (by decide)
  rw [h]
  exact ⟨by decide, hg, hr⟩

/-- C7 (amended), at a concrete input: the code request `R1` is finalized with the code
`K9`. -/
theorem finishCodeRequest_stores_code_witness :
    (GetGrantRequest (finishCodeRequest env0 "K9" store1 requestR1).2 "R1").map
        (fun r => r.Code) = some ⟨true, "K9"⟩
    ∧ (finishCodeRequest env0 "K9" store1 requestR1).2.AccessTokens = [] := by
  obtain ⟨stored, s1, h, hg, hs, -, -, -, ha, -⟩ :=
    finishCodeRequest_stores_code env0 "K9" store1 requestR1 (by decide) (by decide)
  rw [h]
  exact ⟨by show (GetGrantRequest s1 requestR1.Token).map _ = _; rw [hg, hs]; rfl, ha⟩

/-- C8, at a concrete input: the unknown client `nobody` against the client `gin` with a
wrong secret, and the unknown login `carol` against `alice` with a wrong password. -/
theorem auth_failure_does_not_leak_witness :
    Token env0 [] store1 (some ("nobody", "secret")) (.ok ⟨"", "K1", "authorization_code"⟩)
      = Token env0 [] store1 (some ("gin", "wrong")) (.ok ⟨"", "K1", "authorization_code"⟩)
    ∧ Login env0 "K1" store1 (.ok ⟨"carol", "pwA", "R1"⟩)
      = Login env0 "K1" store1 (.ok ⟨"alice", "wrong", "R1"⟩) :=
  have h := auth_failure_does_not_leak env0 [] "K1" store1 "nobody" "gin" "secret" "wrong"
    clientGin (.ok ⟨"", "K1", "authorization_code"⟩) (.ok ⟨"", "K1", "authorization_code"⟩)
    "carol" "alice" "pwA" "wrong" "R1" alice (by decide) (by decide) (by decide) (by decide)
    (by decide) (by decide)
  ⟨h.1.1.trans h.1.2.symm, h.2.1.1⟩

/-- C9, at a concrete input: the refresh token `F1` of `alice` is created in the empty
table and found again. -/
theorem refresh_token_roundtrip_witness :
    (GetRefreshToken { store0 with RefreshTokens := [⟨"F1", ["foo-read", "foo-write"], "c-gin",
        "u-alice"⟩] } "F1").isSome = true
    ∧ GetRefreshToken { store0 with RefreshTokens := [⟨"F1", ["foo-read", "foo-write"], "c-gin",
        "u-alice"⟩] } "doesNotExist" = none := by
  have h := refresh_token_roundtrip store0
    { store0 with RefreshTokens := [⟨"F1", ["foo-read", "foo-write"], "c-gin", "u-alice"⟩] }
    ⟨"F1", ["foo-read", "foo-write"], "c-gin", "u-alice"⟩ rfl
  obtain ⟨check, hc, -, -⟩ := h.1
  exact ⟨by rw [hc]; rfl, h.2.2 "doesNotExist" (by decide)⟩

/-- C10, at a concrete input: the code `K1` was issued to client `gin`; the client `wiki`
presenting its own secret gets the same outcome as `gin`, the token pair. -/
theorem token_ignores_authenticated_client_witness :
    Token env0 ["A1", "F1"] store2 (some ("gin", "secret"))
        (.ok ⟨"", "K1", "authorization_code"⟩)
      = Token env0 ["A1", "F1"] store2 (some ("wiki", "geheim"))
          (.ok ⟨"", "K1", "authorization_code"⟩)
    ∧ (Token env0 ["A1", "F1"] store2 (some ("wiki", "geheim"))
          (.ok ⟨"", "K1", "authorization_code"⟩)).1
        = .json "no-cache" "application/json" ⟨"A1", "F1", "Bearer"⟩ :=
  ⟨(token_ignores_authenticated_client env0 ["A1", "F1"] store2 "gin" "wiki" clientGin
      clientWiki (.ok ⟨"", "K1", "authorization_code"⟩) "" "" "K1" "authorization_code"
      (by decide) (by decide)).1, by decide⟩

end GinAuth
